import Mathlib

/-!
Verification of the contacts-management backend's authentication/session
lifecycle and cache-key strategy.

The Python source is shallowly embedded: pure helpers become Lean functions,
the database and the Redis key-value store become explicit state values
threaded through the service operations, and JWTs become records carrying
their signed payload together with the signing key and algorithm (a signature
check succeeds exactly when the verifier's key and algorithm match the ones
the token was created with, and the token is unexpired).
-/

/-! ## String normalization (Python `str.strip` / `str.lower`, `src/cache/contacts_cache.py` and `src/repository/users.py`) -/

/-- Code points treated as whitespace by Python's `str.strip()`. -/
def pySpaceCodes : List Nat :=
  [0x20, 0x09, 0x0a, 0x0d, 0x0b, 0x0c, 0x1c, 0x1d, 0x1e, 0x1f, 0x85, 0xa0,
   0x1680, 0x2000, 0x2001, 0x2002, 0x2003, 0x2004, 0x2005, 0x2006, 0x2007,
   0x2008, 0x2009, 0x200a, 0x2028, 0x2029, 0x202f, 0x205f, 0x3000]

/-- Whether a character is stripped by Python's `str.strip()`. -/
def isPySpace (c : Char) : Bool := pySpaceCodes.contains c.toNat

/-- ASCII lowercasing of one character, as Python's `str.lower()` acts on the
ASCII range (the repository only ever feeds it ASCII emails and names). -/
def pyLowerChar (c : Char) : Char :=
  if 65 ≤ c.toNat ∧ c.toNat ≤ 90 then Char.ofNat (c.toNat + 32) else c

/-- Python `str.strip()` on a character list: drop whitespace at both ends. -/
def pyStripChars (l : List Char) : List Char :=
  ((l.dropWhile isPySpace).reverse.dropWhile isPySpace).reverse

/-- Python `str.lower()` on a character list. -/
def pyLowerChars (l : List Char) : List Char := l.map pyLowerChar

/-- Python `s.strip().lower()`, the normalization used both by
`_norm` in `contacts_cache.py` and by `get_user_by_email` in
`repository/users.py`. -/
def pyStripLower (s : String) : String := (pyLowerChars (pyStripChars s.data)).asString

/-- Embeds `_norm` from `src/cache/contacts_cache.py`: `(s or "").strip().lower()`. -/
def _norm (s : Option String) : String := pyStripLower (s.getD "")

/-! ## Decimal and hexadecimal rendering -/

/-- One decimal digit as a character. -/
def digitChar (d : Nat) : Char :=
  match d with
  | 0 => '0' | 1 => '1' | 2 => '2' | 3 => '3' | 4 => '4'
  | 5 => '5' | 6 => '6' | 7 => '7' | 8 => '8' | _ => '9'

/-- Fuelled most-significant-first decimal digits of `n`. -/
def decimalAux : Nat → Nat → List Char
  | 0, _ => []
  | f + 1, n =>
    if n < 10 then [digitChar n]
    else decimalAux f (n / 10) ++ [digitChar (n % 10)]

/-- Decimal rendering of a natural number, as a Python f-string renders an
`int`. -/
def natDecimalChars (n : Nat) : List Char := decimalAux (n + 1) n

/-- One hexadecimal digit (lowercase, as `hexdigest` produces). -/
def hexDigitChar (d : Nat) : Char :=
  match d with
  | 0 => '0' | 1 => '1' | 2 => '2' | 3 => '3' | 4 => '4'
  | 5 => '5' | 6 => '6' | 7 => '7' | 8 => '8' | 9 => '9'
  | 10 => 'a' | 11 => 'b' | 12 => 'c' | 13 => 'd' | 14 => 'e' | _ => 'f'

/-- Exactly `f` hexadecimal digits of `n`, most significant first, with
leading zeros, as `hashlib.sha1(...).hexdigest()` renders a 160-bit digest
when `f = 40`. -/
def hexChars : Nat → Nat → List Char
  | 0, _ => []
  | f + 1, n => hexChars f (n / 16) ++ [hexDigitChar (n % 16)]

/-! ## SHA-1 (`hashlib.sha1`, used by `make_search_key`) -/

/-- Truncate to a 32-bit word. -/
def w32 (n : Nat) : Nat := n % 4294967296

/-- Rotate a 32-bit word left by `b` bits. -/
def rotl (b n : Nat) : Nat := w32 ((n <<< b) ||| (n >>> (32 - b)))

/-- Big-endian 32-bit words from a byte list. -/
def bytesToWords : List Nat → List Nat
  | b0 :: b1 :: b2 :: b3 :: rest =>
    ((((b0 <<< 8) ||| b1) <<< 8 ||| b2) <<< 8 ||| b3) :: bytesToWords rest
  | _ => []

/-- Split a word list into 16-word blocks. -/
def wordsToBlocks : List Nat → List (List Nat)
  | w0 :: w1 :: w2 :: w3 :: w4 :: w5 :: w6 :: w7 ::
    w8 :: w9 :: w10 :: w11 :: w12 :: w13 :: w14 :: w15 :: rest =>
    [w0, w1, w2, w3, w4, w5, w6, w7, w8, w9, w10, w11, w12, w13, w14, w15]
      :: wordsToBlocks rest
  | _ => []

/-- SHA-1 message padding: `0x80`, zeros to 56 mod 64, then the bit length as
eight big-endian bytes. -/
def sha1Pad (msg : List Nat) : List Nat :=
  let len := msg.length
  let bitLen := len * 8
  let r := (len + 1) % 64
  let z := if r ≤ 56 then 56 - r else 56 + 64 - r
  msg ++ [0x80] ++ List.replicate z 0 ++
    [w32 (bitLen >>> 56) % 256, (bitLen >>> 48) % 256, (bitLen >>> 40) % 256,
     (bitLen >>> 32) % 256, (bitLen >>> 24) % 256, (bitLen >>> 16) % 256,
     (bitLen >>> 8) % 256, bitLen % 256]

/-- Next scheduled word from the (reversed) list of previous words:
`rotl 1 (w[i-3] xor w[i-8] xor w[i-14] xor w[i-16])`. -/
def sha1Next (recent : List Nat) : Nat :=
  rotl 1 ((recent.getD 2 0) ^^^ (recent.getD 7 0) ^^^ (recent.getD 13 0) ^^^ (recent.getD 15 0))

/-- Extend the schedule by `f` further words (words kept reversed). -/
def sha1Extend : Nat → List Nat → List Nat
  | 0, ws => ws
  | f + 1, ws => sha1Extend f (sha1Next ws :: ws)

/-- The 80-word message schedule of one block. -/
def sha1Schedule (block : List Nat) : List Nat :=
  (sha1Extend 64 block.reverse).reverse

/-- Round function of SHA-1. -/
def sha1F (i b c d : Nat) : Nat :=
  if i < 20 then (b &&& c) ||| ((4294967295 ^^^ b) &&& d)
  else if i < 40 then b ^^^ c ^^^ d
  else if i < 60 then (b &&& c) ||| (b &&& d) ||| (c &&& d)
  else b ^^^ c ^^^ d

/-- Round constant of SHA-1. -/
def sha1K (i : Nat) : Nat :=
  if i < 20 then 0x5A827999
  else if i < 40 then 0x6ED9EBA1
  else if i < 60 then 0x8F1BBCDC
  else 0xCA62C1D6

/-- The 80 compression rounds over the scheduled words. -/
def sha1Rounds : Nat → List Nat → Nat × Nat × Nat × Nat × Nat → Nat × Nat × Nat × Nat × Nat
  | _, [], st => st
  | i, w :: ws, (a, b, c, d, e) =>
    sha1Rounds (i + 1) ws (w32 (rotl 5 a + sha1F i b c d + e + sha1K i + w), a, rotl 30 b, c, d)

/-- Process one 16-word block. -/
def sha1Block (h : Nat × Nat × Nat × Nat × Nat) (block : List Nat) : Nat × Nat × Nat × Nat × Nat :=
  let (h0, h1, h2, h3, h4) := h
  let (a, b, c, d, e) := sha1Rounds 0 (sha1Schedule block) (h0, h1, h2, h3, h4)
  (w32 (h0 + a), w32 (h1 + b), w32 (h2 + c), w32 (h3 + d), w32 (h4 + e))

/-- SHA-1 digest of a byte list, as a 160-bit natural number. -/
def sha1Nat (msg : List Nat) : Nat :=
  let (h0, h1, h2, h3, h4) :=
    (wordsToBlocks (bytesToWords (sha1Pad msg))).foldl sha1Block
      (0x67452301, 0xEFCDAB89, 0x98BADCFE, 0x10325476, 0xC3D2E1F0)
  (((h0 * 4294967296 + h1) * 4294967296 + h2) * 4294967296 + h3) * 4294967296 + h4

/-! ## UTF-8 encoding (`payload.encode("utf-8")`) -/

/-- UTF-8 bytes of one character. -/
def utf8Char (c : Char) : List Nat :=
  let n := c.toNat
  if n < 0x80 then [n]
  else if n < 0x800 then [0xC0 + (n >>> 6), 0x80 + (n &&& 0x3F)]
  else if n < 0x10000 then
    [0xE0 + (n >>> 12), 0x80 + ((n >>> 6) &&& 0x3F), 0x80 + (n &&& 0x3F)]
  else
    [0xF0 + (n >>> 18), 0x80 + ((n >>> 12) &&& 0x3F), 0x80 + ((n >>> 6) &&& 0x3F),
     0x80 + (n &&& 0x3F)]

/-- UTF-8 bytes of a character list. -/
def utf8Bytes (l : List Char) : List Nat := l.foldr (fun c acc => utf8Char c ++ acc) []

/-! ## JSON serialization (`json.dumps(..., separators=(",", ":"), ensure_ascii=False)`) -/

/-- JSON string escaping of one character, as Python's `json.dumps` with
`ensure_ascii=False` performs it. -/
def jsonEscapeChar (c : Char) : List Char :=
  if c = '"' then ['\\', '"']
  else if c = '\\' then ['\\', '\\']
  else if c = '\n' then ['\\', 'n']
  else if c = '\r' then ['\\', 'r']
  else if c = '\t' then ['\\', 't']
  else if c.toNat = 8 then ['\\', 'b']
  else if c.toNat = 12 then ['\\', 'f']
  else if c.toNat < 32 then
    ['\\', 'u', '0', '0', hexDigitChar (c.toNat / 16), hexDigitChar (c.toNat % 16)]
  else [c]

/-- JSON escaping of a whole string body. -/
def jsonEscape (s : String) : List Char := s.data.foldr (fun c acc => jsonEscapeChar c ++ acc) []

/-! ## Cache-key strategy (`src/cache/contacts_cache.py`) -/

/-- Embeds `SEARCH_TTL` from `contacts_cache.py`. -/
def SEARCH_TTL : Nat := 60

/-- Embeds `BIRTHDAYS_TTL` from `contacts_cache.py`. -/
def BIRTHDAYS_TTL : Nat := 600

/-- The serialized payload
`json.dumps({"fn": _norm fn, "ln": _norm ln, "em": _norm em, "s": skip, "l": limit}, separators=(",", ":"), ensure_ascii=False)`
as a character list. -/
def searchPayload (first_name last_name email : Option String) (skip limit : Int) : List Char :=
  "\x7b\"fn\":\"".data ++ jsonEscape (_norm first_name) ++
  "\",\"ln\":\"".data ++ jsonEscape (_norm last_name) ++
  "\",\"em\":\"".data ++ jsonEscape (_norm email) ++
  "\",\"s\":".data ++ (toString skip).data ++
  ",\"l\":".data ++ (toString limit).data ++ "\x7d".data

/-- Embeds `make_search_key` from `contacts_cache.py`:
`f"contacts:search:{user_id}:{sha1(payload.encode()).hexdigest()}"`. -/
def make_search_key (user_id : Nat) (first_name last_name email : Option String)
    (skip limit : Int) : String :=
  ("contacts:search:".data ++ natDecimalChars user_id ++ ":".data ++
    hexChars 40 (sha1Nat (utf8Bytes (searchPayload first_name last_name email skip limit)))).asString

/-- Embeds `make_birthdays_key` from `contacts_cache.py`:
`f"contacts:birthdays:{user_id}:{days_ahead}"`. -/
def make_birthdays_key (user_id : Nat) (days_ahead : Nat) : String :=
  ("contacts:birthdays:".data ++ natDecimalChars user_id ++ ":".data ++
    natDecimalChars days_ahead).asString

/-! ## Token codec (`src/auth/auth.py`) -/

/-- Embeds `RESET_TOKEN_TYPE` from `auth.py`. -/
def RESET_TOKEN_TYPE : String := "password_reset"

/-- Embeds `ACCESS_TOKEN_TYPE` from `auth.py`. -/
def ACCESS_TOKEN_TYPE : String := "access"

/-- Embeds `REFRESH_TOKEN_TYPE` from `auth.py`. -/
def REFRESH_TOKEN_TYPE : String := "refresh"

/-- The claim set carried by a JWT in this repository: `sub` and
`token_type` are optional dictionary entries, `iat`/`exp` are timestamps. -/
structure Claims where
  sub : Option String
  token_type : Option String
  iat : Int
  exp : Int
deriving DecidableEq, Repr

/-- A signed token: the payload together with the key and algorithm it was
signed with.  Verification succeeds exactly when the verifier supplies the
same key and algorithm and the token is unexpired. -/
structure JwtToken where
  payload : Claims
  key : String
  alg : String
deriving DecidableEq, Repr

/-- The process-wide configuration (`src/conf/config.py` settings consumed by
the auth lifecycle). -/
structure Settings where
  JWT_SECRET : String
  JWT_ALGORITHM : String
  JWT_EXPIRATION_SECONDS : Int
  JWT_REFRESH_EXPIRATION_SECONDS : Int
  RESET_TOKEN_EXPIRATION_SECONDS : Int
deriving DecidableEq, Repr

/-- Models `jose.jwt.decode(token, key, algorithms=[alg])` at time `now`: succeeds
with the payload iff the signature verifies (same key and algorithm) and the
token is unexpired (`exp` not in the past); any failure raises `JWTError`,
modelled as `Except.error ()`. -/
def jwtDecode (tok : JwtToken) (key alg : String) (now : Int) : Except Unit Claims :=
  if tok.key = key ∧ tok.alg = alg ∧ now ≤ tok.payload.exp then .ok tok.payload
  else .error ()

/-- Embeds `create_token` from `auth.py`: payload
`{**data, "iat": now, "exp": now + expires_delta, "token_type": token_type}`
signed with `settings.JWT_SECRET` and `settings.JWT_ALGORITHM`; every call
site passes `data = {"sub": email}`. -/
def create_token (s : Settings) (now : Int) (sub : String) (expires_delta : Int)
    (token_type : String) : JwtToken :=
  ⟨⟨some sub, some token_type, now, now + expires_delta⟩, s.JWT_SECRET, s.JWT_ALGORITHM⟩

/-- Embeds `create_access_token` as invoked by the user service (which always passes
`settings.JWT_EXPIRATION_SECONDS`). -/
def create_access_token (s : Settings) (now : Int) (sub : String) : JwtToken :=
  create_token s now sub s.JWT_EXPIRATION_SECONDS ACCESS_TOKEN_TYPE

/-- Embeds `create_refresh_token` as invoked by the user service. -/
def create_refresh_token (s : Settings) (now : Int) (sub : String) : JwtToken :=
  create_token s now sub s.JWT_REFRESH_EXPIRATION_SECONDS REFRESH_TOKEN_TYPE

/-- Embeds `decode_refresh_token` from `auth.py`, lines 96-100: a bare
`jwt.decode(refresh_token, settings.JWT_SECRET, algorithms=[settings.JWT_ALGORITHM])`
with no `token_type` inspection. -/
def decode_refresh_token (s : Settings) (now : Int) (tok : JwtToken) : Except Unit Claims :=
  jwtDecode tok s.JWT_SECRET s.JWT_ALGORITHM now

/-- Embeds `create_reset_token` from `auth.py`: adds `token_type = "password_reset"`
and signs with the hard-coded `"HS256"` algorithm. -/
def create_reset_token (s : Settings) (now : Int) (sub : String)
    (expires_seconds : Int) : JwtToken :=
  ⟨⟨some sub, some RESET_TOKEN_TYPE, now, now + expires_seconds⟩, s.JWT_SECRET, "HS256"⟩

/-- Embeds `decode_reset_token` from `auth.py`, lines 197-212: decodes with
`"HS256"` and raises `JWTError` when `data.get("token_type")` is not
`"password_reset"`. -/
def decode_reset_token (s : Settings) (now : Int) (tok : JwtToken) : Except Unit Claims :=
  match jwtDecode tok s.JWT_SECRET "HS256" now with
  | .error e => .error e
  | .ok data => if data.token_type ≠ some RESET_TOKEN_TYPE then .error () else .ok data

/-! ## Database and Session Store state (`src/database/models.py`, `src/cache/token_cache.py`) -/

/-- A `users` row (fields the auth lifecycle touches). -/
structure DBUser where
  id : Nat
  username : String
  email : String
  password_hash : String
  confirmed : Bool
  refresh_token : Option JwtToken
deriving DecidableEq, Repr

/-- A Redis key used by the auth lifecycle: `rt:<token>` for refresh-token
liveness (`token_cache._rt_key`) and `pr:<token>` for password-reset entries
(`users.py` request/reset). -/
inductive RKey where
  | rt (tok : JwtToken)
  | pr (tok : JwtToken)
deriving DecidableEq, Repr

/-- The Session Store contents: live keys with their values (TTLs are
abstracted: an entry is present iff it has not expired or been deleted). -/
def RedisState := List (RKey × String)

instance : DecidableEq RedisState := inferInstanceAs (DecidableEq (List (RKey × String)))

/-- Redis `r.get(key)`. -/
def rget (r : RedisState) (k : RKey) : Option String :=
  (r.find? (fun e => e.1 = k)).map (fun e => e.2)

/-- Redis `r.set`/`r.setex`. -/
def rset (r : RedisState) (k : RKey) (v : String) : RedisState :=
  (k, v) :: r.filter (fun e => e.1 ≠ k)

/-- Redis `r.delete(key)`. -/
def rdel (r : RedisState) (k : RKey) : RedisState :=
  r.filter (fun e => e.1 ≠ k)

/-- Redis `r.exists(key) == 1`. -/
def rexists (r : RedisState) (k : RKey) : Bool :=
  r.any (fun e => e.1 = k)

/-- Embeds `is_refresh_token_active` from `token_cache.py`. -/
def is_refresh_token_active (r : RedisState) (tok : JwtToken) : Bool :=
  rexists r (.rt tok)

/-- Embeds `save_refresh_token` from `token_cache.py`. -/
def save_refresh_token (r : RedisState) (tok : JwtToken) (email : String) : RedisState :=
  rset r (.rt tok) email

/-- The relational store plus the Session Store. -/
structure AppState where
  users : List DBUser
  redis : RedisState
deriving DecidableEq

/-! ## User repository (`src/repository/users.py`) -/

/-- Embeds `UserRepository.get_user_by_email`: normalizes the argument with
`email.strip().lower()` and returns the first matching row. -/
def UserRepository.get_user_by_email (users : List DBUser) (email : String) : Option DBUser :=
  users.find? (fun u => u.email = pyStripLower email)

/-- Embeds `UserRepository.get_user_by_refresh_token`. -/
def UserRepository.get_user_by_refresh_token (users : List DBUser) (tok : JwtToken) :
    Option DBUser :=
  users.find? (fun u => u.refresh_token = some tok)

/-- Embeds `UserRepository.set_refresh_token`: `UPDATE users SET refresh_token = ?
WHERE email = ?` (no normalization of the argument). -/
def UserRepository.set_refresh_token (users : List DBUser) (email : String)
    (tok : Option JwtToken) : List DBUser :=
  users.map (fun u => if u.email = email then { u with refresh_token := tok } else u)

/-- Embeds `UserRepository.set_password_hash`: `UPDATE users SET password_hash = ?,
refresh_token = NULL WHERE email = ?`. -/
def UserRepository.set_password_hash (users : List DBUser) (email : String)
    (hash : String) : List DBUser :=
  users.map (fun u =>
    if u.email = email then { u with password_hash := hash, refresh_token := none } else u)

/-! ## User service (`src/services/users.py`) -/

/-- Result of `UserService.refresh_access_token`: the minted token pair, or
the `ValueError("Invalid or expired refresh token")` raised on any failed
check, or the `KeyError` that `payload["sub"]` raises when the decoded
payload has no `sub` entry. -/
inductive RefreshOutcome where
  | ok (access_token refresh_token : JwtToken)
  | invalidOrExpired
  | keyError
deriving DecidableEq, Repr

/-- Embeds `UserService.refresh_access_token`, `users.py` lines 121-167.  Fast path:
if the token is active in Redis, decode it (no `token_type` check) and
resolve the user from `payload["sub"]`.  Fallback path: find the user by the
stored row token, decode, check `token_type == "refresh"` and
`sub == user.email`, and re-register the token in Redis.  On success a new
access token is minted and the same refresh token returned. -/
def UserService.refresh_access_token (s : Settings) (now : Int) (st : AppState)
    (refresh_token : JwtToken) : RefreshOutcome × AppState :=
  if is_refresh_token_active st.redis refresh_token then
    match decode_refresh_token s now refresh_token with
    | .error _ => (.invalidOrExpired, st)
    | .ok payload =>
      match payload.sub with
      | none => (.keyError, st)
      | some sub =>
        match UserRepository.get_user_by_email st.users sub with
        | none => (.invalidOrExpired, st)
        | some user => (.ok (create_access_token s now user.email) refresh_token, st)
  else
    match UserRepository.get_user_by_refresh_token st.users refresh_token with
    | none => (.invalidOrExpired, st)
    | some user =>
      match decode_refresh_token s now refresh_token with
      | .error _ => (.invalidOrExpired, st)
      | .ok payload =>
        if payload.token_type ≠ some REFRESH_TOKEN_TYPE ∨ payload.sub ≠ some user.email then
          (.invalidOrExpired, st)
        else
          (.ok (create_access_token s now user.email) refresh_token,
           { st with redis := save_refresh_token st.redis refresh_token user.email })

/-- Embeds `UserService.logout`, `users.py` lines 169-171: clears only the User-row
refresh-token field. -/
def UserService.logout (st : AppState) (user_email : String) : AppState :=
  { st with users := UserRepository.set_refresh_token st.users user_email none }

/-- Result of `UserService.reset_password`: success, the 400
`Invalid or expired reset token`, or the 404 `User not found`. -/
inductive ResetOutcome where
  | ok
  | invalidOrExpired
  | userNotFound
deriving DecidableEq, Repr

/-- Embeds `UserService.reset_password`, `users.py` lines 230-278.  `hashFn` stands
for `Hash.get_password_hash` (bcrypt with a fresh salt).  The returned state
reflects all mutations performed before the function returns or raises. -/
def UserService.reset_password (s : Settings) (now : Int) (hashFn : String → String)
    (st : AppState) (token : JwtToken) (new_password : String) : ResetOutcome × AppState :=
  match rget st.redis (.pr token) with
  | none => (.invalidOrExpired, st)
  | some email =>
    match decode_reset_token s now token with
    | .error _ => (.invalidOrExpired, st)
    | .ok payload =>
      if payload.token_type ≠ some RESET_TOKEN_TYPE ∨ payload.sub ≠ some email then
        (.invalidOrExpired, st)
      else
        match UserRepository.get_user_by_email st.users email with
        | none => (.userNotFound, { st with redis := rdel st.redis (.pr token) })
        | some user =>
          let new_hash := hashFn new_password
          let users1 := UserRepository.set_password_hash st.users user.email new_hash
          let users2 := UserRepository.set_refresh_token users1 email none
          (.ok, { users := users2, redis := rdel st.redis (.pr token) })

/-! ## Calendar dates (`datetime.date`, used by `upcoming_birthdays`) -/

/-- A calendar date. -/
structure PDate where
  year : Nat
  month : Nat
  day : Nat
deriving DecidableEq, Repr

/-- Gregorian leap-year rule. -/
def isLeap (y : Nat) : Bool := y % 4 = 0 ∧ (y % 100 ≠ 0 ∨ y % 400 = 0)

/-- Days in a month. -/
def daysInMonth (y m : Nat) : Nat :=
  if m = 1 ∨ m = 3 ∨ m = 5 ∨ m = 7 ∨ m = 8 ∨ m = 10 ∨ m = 12 then 31
  else if m = 2 then (if isLeap y then 29 else 28)
  else 30

/-- The following calendar day. -/
def nextDay (d : PDate) : PDate :=
  if d.day < daysInMonth d.year d.month then ⟨d.year, d.month, d.day + 1⟩
  else if d.month < 12 then ⟨d.year, d.month + 1, 1⟩
  else ⟨d.year + 1, 1, 1⟩

/-- Computes `today + timedelta(days=n)`. -/
def addDays (d : PDate) : Nat → PDate
  | 0 => d
  | n + 1 => addDays (nextDay d) n

/-- Two-digit zero-padded rendering (months and days). -/
def pad2 (n : Nat) : List Char :=
  if n < 10 then ['0', digitChar n] else [digitChar (n / 10), digitChar (n % 10)]

/-- Computes `strftime("%m%d")` / `to_char(birthday, 'MMDD')`: the four-digit
month-day string. -/
def mmdd (m d : Nat) : String := (pad2 m ++ pad2 d).asString

/-- Lexicographic code-point comparison of character lists (the order SQL
`BETWEEN`/`>=`/`<=` uses on the `MMDD` text keys). -/
def charListLe : List Char → List Char → Bool
  | [], _ => true
  | _ :: _, [] => false
  | a :: as, b :: bs =>
    if a.toNat < b.toNat then true
    else if b.toNat < a.toNat then false
    else charListLe as bs

/-- Lexicographic string comparison. -/
def strLe (a b : String) : Bool := charListLe a.data b.data

/-! ## Contacts (`src/database/models.py`, `src/repository/contacts.py`) -/

/-- A `contacts` row (fields relevant to the claims). -/
structure Contact where
  id : Nat
  user_id : Nat
  first_name : String
  last_name : String
  email : String
  phone : String
  birthday : Option PDate
  extra_info : Option String
deriving DecidableEq, Repr

/-- The month-day sort/filter key of a contact (`to_char(birthday, 'MMDD')`;
only evaluated on rows whose `birthday` is non-null). -/
def birthdayKey (c : Contact) : String :=
  match c.birthday with
  | some b => mmdd b.month b.day
  | none => ""

/-- The SQL range condition on the month-day key: `BETWEEN start AND end`
when `start_key <= end_key`, otherwise `key >= start OR key <= end`. -/
def bdayInRange (startKey endKey : String) (c : Contact) : Bool :=
  match c.birthday with
  | none => false
  | some b =>
    let k := mmdd b.month b.day
    if strLe startKey endKey then strLe startKey k && strLe k endKey
    else strLe startKey k || strLe k endKey

/-- Insertion into a list sorted by `birthdayKey` (models `ORDER BY
to_char(birthday, 'MMDD')`). -/
def insertByKey (c : Contact) : List Contact → List Contact
  | [] => [c]
  | x :: xs =>
    if strLe (birthdayKey c) (birthdayKey x) then c :: x :: xs else x :: insertByKey c xs

/-- Sorting by `birthdayKey`. -/
def sortByKey : List Contact → List Contact
  | [] => []
  | c :: cs => insertByKey c (sortByKey cs)

/-- Embeds `ContactRepository.upcoming_birthdays`, `contacts.py` lines 106-130:
filter the user's contacts with non-null birthday by the month-day window
`[today.strftime("%m%d"), (today + timedelta(days)).strftime("%m%d")]`
(lexicographic `BETWEEN` when `start_key <= end_key`, wrapped disjunction
otherwise) and order by the month-day key. -/
def ContactRepository.upcoming_birthdays (contacts : List Contact) (days : Nat)
    (user_id : Nat) (today : PDate) : List Contact :=
  let endDate := addDays today days
  let start_key := mmdd today.month today.day
  let end_key := mmdd endDate.month endDate.day
  sortByKey (contacts.filter (fun c =>
    c.user_id = user_id ∧ c.birthday.isSome ∧ bdayInRange start_key end_key c))

/-- Embeds `ContactRepository.get_contact_by_id`: `filter_by(id=contact_id,
user_id=user.id)`, one row or none. -/
def ContactRepository.get_contact_by_id (contacts : List Contact) (contact_id : Nat)
    (user_id : Nat) : Option Contact :=
  contacts.find? (fun c => c.id = contact_id ∧ c.user_id = user_id)

/-- Embeds `ContactRepository.remove_contact`, `contacts.py` lines 48-55: look the
row up owner-scoped; if absent return `None` and change nothing, else delete
that row and return it. -/
def ContactRepository.remove_contact (contacts : List Contact) (contact_id : Nat)
    (user_id : Nat) : Option Contact × List Contact :=
  match ContactRepository.get_contact_by_id contacts contact_id user_id with
  | none => (none, contacts)
  | some c => (some c, contacts.eraseP (fun c => c.id = contact_id ∧ c.user_id = user_id))

/-! ## Contact service (`src/services/contacts.py`) -/

/-- Embeds `ContactService.remove_contact`, `contacts.py` service lines 34-37: calls
the repository and returns `True` unconditionally, discarding the
repository's `None`/row result. -/
def ContactService.remove_contact (contacts : List Contact) (contact_id : Nat)
    (user_id : Nat) : List Contact × Bool :=
  ((ContactRepository.remove_contact contacts contact_id user_id).2, true)

/-- The contacts cache: key, cached (deserialized) value, TTL in seconds. -/
def ContactsCache := List (String × List Contact × Nat)

instance : DecidableEq ContactsCache :=
  inferInstanceAs (DecidableEq (List (String × List Contact × Nat)))

/-- Embeds `get_search_contacts`/`get_birthdays` from `contacts_cache.py`: the
stored value under the key, or `None`.  (The stored JSON of a list is a
non-empty string, so `if not data` never fires for stored values; JSON
round-tripping is the identity in this model.) -/
def cacheGet (cache : ContactsCache) (key : String) : Option (List Contact) :=
  (cache.find? (fun e => e.1 = key)).map (fun e => e.2.1)

/-- Embeds `set_search_contacts`/`set_birthdays`: store the value under the key with
the given TTL. -/
def cacheSet (cache : ContactsCache) (key : String) (v : List Contact) (ttl : Nat) :
    ContactsCache :=
  (key, v, ttl) :: cache.filter (fun e => e.1 ≠ key)

/-- Embeds `ContactService.search_contacts`, `contacts.py` service lines 39-72:
compute the search key, return the cached value on a hit, otherwise invoke
the repository (its result is the `repoResult` argument), store it with
`SEARCH_TTL` and return it. -/
def ContactService.search_contacts (cache : ContactsCache) (user_id : Nat)
    (first_name last_name email : Option String) (skip limit : Int)
    (repoResult : List Contact) : List Contact × ContactsCache :=
  let key := make_search_key user_id first_name last_name email skip limit
  match cacheGet cache key with
  | some cached => (cached, cache)
  | none => (repoResult, cacheSet cache key repoResult SEARCH_TTL)

/-- Embeds `ContactService.upcoming_birthdays`, `contacts.py` service lines 74-93:
same read-through shape with the birthdays key and `BIRTHDAYS_TTL`. -/
def ContactService.upcoming_birthdays (cache : ContactsCache) (user_id : Nat)
    (days_ahead : Nat) (repoResult : List Contact) : List Contact × ContactsCache :=
  let key := make_birthdays_key user_id days_ahead
  match cacheGet cache key with
  | some cached => (cached, cache)
  | none => (repoResult, cacheSet cache key repoResult BIRTHDAYS_TTL)

/-- Whether a refresh outcome is a success. -/
def RefreshOutcome.isOk : RefreshOutcome → Bool
  | .ok _ _ => true
  | _ => false

/-- A sequence of `reset_password` confirms with the same token, threading
the state (used to express single-use across any number of retries). -/
def resetSeq (s : Settings) (now : Int) (hashFn : String → String) (token : JwtToken)
    (st : AppState) (pws : List String) : AppState :=
  pws.foldl (fun st pw => (UserService.reset_password s now hashFn st token pw).2) st

/-- Digit value of a decimal digit character (left inverse of `digitChar`). -/
def digitVal (c : Char) : Nat := c.toNat - 48

/-- Numeric value of a most-significant-first decimal digit string. -/
def decimalVal (l : List Char) : Nat := l.foldl (fun a c => a * 10 + digitVal c) 0

/-! ## Helper lemmas -/

/-- Characterization of a successful `jwt.decode`. -/
theorem jwtDecode_eq_ok_iff {tok : JwtToken} {key alg : String} {now : Int} {c : Claims} :
    jwtDecode tok key alg now = Except.ok c ↔
      (tok.key = key ∧ tok.alg = alg ∧ now ≤ tok.payload.exp ∧ c = tok.payload) := by
  unfold jwtDecode
  split
  · rename_i h
    constructor
    · intro hc
      exact ⟨h.1, h.2.1, h.2.2, (Except.ok.injEq _ _ ▸ hc).symm⟩
    · rintro ⟨-, -, -, rfl⟩
      rfl
  · rename_i h
    constructor
    · intro hc
      exact (Except.noConfusion hc : False).elim
    · rintro ⟨h1, h2, h3, -⟩
      exact absurd ⟨h1, h2, h3⟩ h

/-- A failed `jwt.decode` is exactly a signature/algorithm mismatch or an
expired token. -/
theorem jwtDecode_eq_error_iff {tok : JwtToken} {key alg : String} {now : Int} :
    jwtDecode tok key alg now = Except.error () ↔
      ¬(tok.key = key ∧ tok.alg = alg ∧ now ≤ tok.payload.exp) := by
  unfold jwtDecode
  split
  · rename_i h
    simp [h]
  · rename_i h
    simp [h]

/-! ## C1 — token-type enforcement in the decode operations -/

/-- C1 (amended): `decode_reset_token` enforces the expected type — it
succeeds only on tokens whose encoded `token_type` is `"password_reset"` and
fails on any other type even when the signature is valid and the token
unexpired; `decode_refresh_token`, by contrast, performs no `token_type`
check at all: it succeeds exactly when the signature verifies and the token
is unexpired, whatever the encoded type (the refresh-type check lives only in
its caller's fallback path). -/
theorem decode_token_type_enforcement (s : Settings) (now : Int) (tok : JwtToken) :
    ((∃ c, decode_reset_token s now tok = Except.ok c) →
      tok.payload.token_type = some RESET_TOKEN_TYPE) ∧
    (tok.key = s.JWT_SECRET → tok.alg = "HS256" → now ≤ tok.payload.exp →
      tok.payload.token_type ≠ some RESET_TOKEN_TYPE →
      decode_reset_token s now tok = Except.error ()) ∧
    (decode_refresh_token s now tok = Except.ok tok.payload ↔
      (tok.key = s.JWT_SECRET ∧ tok.alg = s.JWT_ALGORITHM ∧ now ≤ tok.payload.exp)) := by
  refine ⟨?_, ?_, ?_⟩
  · rintro ⟨c, hc⟩
    unfold decode_reset_token at hc
    cases hj : jwtDecode tok s.JWT_SECRET "HS256" now with
    | error e => rw [hj] at hc; exact (Except.noConfusion hc : False).elim
    | ok data =>
      rw [hj] at hc
      rcases jwtDecode_eq_ok_iff.mp hj with ⟨-, -, -, rfl⟩
      by_cases ht : tok.payload.token_type = some RESET_TOKEN_TYPE
      · exact ht
      · simp [ht] at hc
  · intro h1 h2 h3 ht
    unfold decode_reset_token
    rw [show jwtDecode tok s.JWT_SECRET "HS256" now = Except.ok tok.payload from
      jwtDecode_eq_ok_iff.mpr ⟨h1, h2, h3, rfl⟩]
    simp [ht]
  · unfold decode_refresh_token
    rw [jwtDecode_eq_ok_iff]
    simp

/-- Witness for C1: concrete applications — an access-typed token rejected by
the reset decode, a refresh-typed token accepted by the refresh decode. -/
theorem decode_token_type_enforcement_witness :
    decode_reset_token ⟨"sec", "HS256", 900, 604800, 900⟩ 5
        ⟨⟨some "a@b", some "access", 0, 100⟩, "sec", "HS256"⟩ = Except.error () ∧
    decode_refresh_token ⟨"sec", "HS256", 900, 604800, 900⟩ 5
        ⟨⟨some "a@b", some "refresh", 0, 100⟩, "sec", "HS256"⟩ =
      Except.ok ⟨some "a@b", some "refresh", 0, 100⟩ := by
  constructor
  · exact (decode_token_type_enforcement ⟨"sec", "HS256", 900, 604800, 900⟩ 5
      ⟨⟨some "a@b", some "access", 0, 100⟩, "sec", "HS256"⟩).2.1 rfl rfl (by decide) (by decide)
  · exact (decode_token_type_enforcement ⟨"sec", "HS256", 900, 604800, 900⟩ 5
      ⟨⟨some "a@b", some "refresh", 0, 100⟩, "sec", "HS256"⟩).2.2.mpr ⟨rfl, rfl, by decide⟩

/-- Counterexample to C1 as stated: `decode_refresh_token` — the decode
operation whose expected type is `refresh` — accepts a validly signed,
unexpired token whose encoded `token_type` is `"access"`. -/
theorem decode_refresh_token_accepts_access_token :
    decode_refresh_token ⟨"sec", "HS256", 900, 604800, 900⟩ 5
        ⟨⟨some "a@b", some ACCESS_TOKEN_TYPE, 0, 100⟩, "sec", "HS256"⟩ =
      Except.ok ⟨some "a@b", some ACCESS_TOKEN_TYPE, 0, 100⟩ ∧
    ACCESS_TOKEN_TYPE ≠ REFRESH_TOKEN_TYPE := by
  exact ⟨rfl, by decide⟩

/-- Characterization: `decode_refresh_token` succeeds exactly on signature/algorithm match and
non-expiry (specialization of `jwtDecode_eq_ok_iff`). -/
theorem decode_refresh_eq_ok_iff {s : Settings} {now : Int} {tok : JwtToken} {c : Claims} :
    decode_refresh_token s now tok = Except.ok c ↔
      (tok.key = s.JWT_SECRET ∧ tok.alg = s.JWT_ALGORITHM ∧ now ≤ tok.payload.exp ∧
        c = tok.payload) := by
  unfold decode_refresh_token
  exact jwtDecode_eq_ok_iff

/-! ## C2 — refresh-token rotation checks -/

/-- C2 (amended): on the User-row fallback path `refresh_access_token`
succeeds exactly when all three checks pass — row-token presence,
cryptographic validity, `token_type = "refresh"` and subject equality — and
on success re-registers the token in the Session Store; on the Session-Store
fast path, however, the `token_type` and explicit subject-equality checks are
NOT applied: any validly signed, unexpired token whose `sub` resolves to an
existing user succeeds, and the fast path never mutates state.  Every
failing call returns the state unchanged. -/
theorem refresh_rotation_checks (s : Settings) (now : Int) (st : AppState) (tok : JwtToken) :
    (∀ o st2, UserService.refresh_access_token s now st tok = (o, st2) →
      o.isOk = false → st2 = st) ∧
    (is_refresh_token_active st.redis tok = true →
      (UserService.refresh_access_token s now st tok).2 = st ∧
      ((UserService.refresh_access_token s now st tok).1.isOk = true ↔
        (tok.key = s.JWT_SECRET ∧ tok.alg = s.JWT_ALGORITHM ∧ now ≤ tok.payload.exp ∧
          ∃ sub, tok.payload.sub = some sub ∧
            (UserRepository.get_user_by_email st.users sub).isSome = true))) ∧
    (is_refresh_token_active st.redis tok = false →
      (((UserService.refresh_access_token s now st tok).1.isOk = true) ↔
        (∃ u, UserRepository.get_user_by_refresh_token st.users tok = some u ∧
          tok.key = s.JWT_SECRET ∧ tok.alg = s.JWT_ALGORITHM ∧ now ≤ tok.payload.exp ∧
          tok.payload.token_type = some REFRESH_TOKEN_TYPE ∧
          tok.payload.sub = some u.email)) ∧
      (∀ a r st2, UserService.refresh_access_token s now st tok = (.ok a r, st2) →
        ∃ u, UserRepository.get_user_by_refresh_token st.users tok = some u ∧
          r = tok ∧ a = create_access_token s now u.email ∧
          st2 = { st with redis := save_refresh_token st.redis tok u.email })) := by
  by_cases hact : is_refresh_token_active st.redis tok = true
  · -- Session-Store fast path
    cases hdec : decode_refresh_token s now tok with
    | error e =>
      have hF : UserService.refresh_access_token s now st tok =
          (RefreshOutcome.invalidOrExpired, st) := by
        unfold UserService.refresh_access_token
        simp [hact, hdec]
      refine ⟨?_, ?_, ?_⟩
      · intro o st2 h _
        rw [hF] at h
        injection h with h1 h2
        exact h2.symm
      · intro _
        refine ⟨by rw [hF], ?_⟩
        rw [hF]
        constructor
        · intro hOk
          simp [RefreshOutcome.isOk] at hOk
        · rintro ⟨h1, h2, h3, -, -, -⟩
          have := decode_refresh_eq_ok_iff.mpr ⟨h1, h2, h3, rfl⟩
          rw [hdec] at this
          exact (Except.noConfusion this : False).elim
      · intro hfalse
        simp [hact] at hfalse
    | ok payload =>
      obtain ⟨hkey, halg, hexp, rfl⟩ := decode_refresh_eq_ok_iff.mp hdec
      cases hsub : tok.payload.sub with
      | none =>
        have hF : UserService.refresh_access_token s now st tok =
            (RefreshOutcome.keyError, st) := by
          unfold UserService.refresh_access_token
          simp [hact, hdec, hsub]
        refine ⟨?_, ?_, ?_⟩
        · intro o st2 h _
          rw [hF] at h
          injection h with h1 h2
          exact h2.symm
        · intro _
          refine ⟨by rw [hF], ?_⟩
          rw [hF]
          constructor
          · intro hOk
            simp [RefreshOutcome.isOk] at hOk
          · rintro ⟨-, -, -, sb, hsb, -⟩
            exact Option.noConfusion hsb
        · intro hfalse
          simp [hact] at hfalse
      | some sb =>
        cases huser : UserRepository.get_user_by_email st.users sb with
        | none =>
          have hF : UserService.refresh_access_token s now st tok =
              (RefreshOutcome.invalidOrExpired, st) := by
            unfold UserService.refresh_access_token
            simp [hact, hdec, hsub, huser]
          refine ⟨?_, ?_, ?_⟩
          · intro o st2 h _
            rw [hF] at h
            injection h with h1 h2
            exact h2.symm
          · intro _
            refine ⟨by rw [hF], ?_⟩
            rw [hF]
            constructor
            · intro hOk
              simp [RefreshOutcome.isOk] at hOk
            · rintro ⟨-, -, -, sb2, hsb2, hus⟩
              injection hsb2 with hsb3
              rw [← hsb3, huser] at hus
              simp at hus
          · intro hfalse
            simp [hact] at hfalse
        | some u =>
          have hF : UserService.refresh_access_token s now st tok =
              (RefreshOutcome.ok (create_access_token s now u.email) tok, st) := by
            unfold UserService.refresh_access_token
            simp [hact, hdec, hsub, huser]
          refine ⟨?_, ?_, ?_⟩
          · intro o st2 h hno
            rw [hF] at h
            injection h with h1 h2
            rw [← h1] at hno
            simp [RefreshOutcome.isOk] at hno
          · intro _
            refine ⟨by rw [hF], ?_⟩
            rw [hF]
            constructor
            · intro _
              exact ⟨hkey, halg, hexp, sb, rfl, by rw [huser]; rfl⟩
            · intro _
              rfl
          · intro hfalse
            simp [hact] at hfalse
  · -- User-row fallback path
    have hact2 : is_refresh_token_active st.redis tok = false := by
      simpa using hact
    cases hfind : UserRepository.get_user_by_refresh_token st.users tok with
    | none =>
      have hF : UserService.refresh_access_token s now st tok =
          (RefreshOutcome.invalidOrExpired, st) := by
        unfold UserService.refresh_access_token
        simp [hact2, hfind]
      refine ⟨?_, ?_, ?_⟩
      · intro o st2 h _
        rw [hF] at h
        injection h with h1 h2
        exact h2.symm
      · intro htrue
        rw [hact2] at htrue
        exact Bool.noConfusion htrue
      · intro _
        constructor
        · rw [hF]
          constructor
          · intro hOk
            simp [RefreshOutcome.isOk] at hOk
          · rintro ⟨u, hu, -⟩
            exact Option.noConfusion hu
        · intro a r st2 h
          rw [hF] at h
          injection h with h1 h2
          exact RefreshOutcome.noConfusion h1
    | some u =>
      cases hdec : decode_refresh_token s now tok with
      | error e =>
        have hF : UserService.refresh_access_token s now st tok =
            (RefreshOutcome.invalidOrExpired, st) := by
          unfold UserService.refresh_access_token
          simp [hact2, hfind, hdec]
        refine ⟨?_, ?_, ?_⟩
        · intro o st2 h _
          rw [hF] at h
          injection h with h1 h2
          exact h2.symm
        · intro htrue
          rw [hact2] at htrue
          exact Bool.noConfusion htrue
        · intro _
          constructor
          · rw [hF]
            constructor
            · intro hOk
              simp [RefreshOutcome.isOk] at hOk
            · rintro ⟨u2, hu2, h1, h2, h3, -⟩
              have := decode_refresh_eq_ok_iff.mpr ⟨h1, h2, h3, rfl⟩
              rw [hdec] at this
              exact (Except.noConfusion this : False).elim
          · intro a r st2 h
            rw [hF] at h
            injection h with h1 h2
            exact RefreshOutcome.noConfusion h1
      | ok payload =>
        obtain ⟨hkey, halg, hexp, rfl⟩ := decode_refresh_eq_ok_iff.mp hdec
        by_cases hc : (tok.payload.token_type ≠ some REFRESH_TOKEN_TYPE ∨
            tok.payload.sub ≠ some u.email)
        · have hF : UserService.refresh_access_token s now st tok =
              (RefreshOutcome.invalidOrExpired, st) := by
            unfold UserService.refresh_access_token
            simp only [hact2, Bool.false_eq_true, if_false, hfind, hdec]
            rw [if_pos hc]
          refine ⟨?_, ?_, ?_⟩
          · intro o st2 h _
            rw [hF] at h
            injection h with h1 h2
            exact h2.symm
          · intro htrue
            rw [hact2] at htrue
            exact Bool.noConfusion htrue
          · intro _
            constructor
            · rw [hF]
              constructor
              · intro hOk
                simp [RefreshOutcome.isOk] at hOk
              · rintro ⟨u2, hu2, -, -, -, hty, hsb⟩
                injection hu2 with hu3
                rw [← hu3] at hsb
                rcases hc with hc | hc
                · exact (hc hty).elim
                · exact (hc hsb).elim
            · intro a r st2 h
              rw [hF] at h
              injection h with h1 h2
              exact RefreshOutcome.noConfusion h1
        · push_neg at hc
          obtain ⟨hty, hsb⟩ := hc
          have hF : UserService.refresh_access_token s now st tok =
              (RefreshOutcome.ok (create_access_token s now u.email) tok,
               { st with redis := save_refresh_token st.redis tok u.email }) := by
            unfold UserService.refresh_access_token
            simp only [hact2, Bool.false_eq_true, if_false, hfind, hdec]
            rw [if_neg (by push_neg; exact ⟨hty, hsb⟩)]
          refine ⟨?_, ?_, ?_⟩
          · intro o st2 h hno
            rw [hF] at h
            injection h with h1 h2
            rw [← h1] at hno
            simp [RefreshOutcome.isOk] at hno
          · intro htrue
            rw [hact2] at htrue
            exact Bool.noConfusion htrue
          · intro _
            constructor
            · rw [hF]
              constructor
              · intro _
                exact ⟨u, rfl, hkey, halg, hexp, hty, hsb⟩
              · intro _
                rfl
            · intro a r st2 h
              rw [hF] at h
              injection h with h1 h2
              injection h1 with ha hr
              exact ⟨u, rfl, hr.symm, ha.symm, h2.symm⟩

/-- Witness for C2: a concrete fallback-path rotation in which all three
checks hold succeeds. -/
theorem refresh_rotation_checks_witness :
    (UserService.refresh_access_token ⟨"sec", "HS256", 900, 604800, 900⟩ 5
      ⟨[⟨1, "alice", "a@b", "h", true,
          some ⟨⟨some "a@b", some "refresh", 0, 100⟩, "sec", "HS256"⟩⟩], []⟩
      ⟨⟨some "a@b", some "refresh", 0, 100⟩, "sec", "HS256"⟩).1.isOk = true := by
  exact ((refresh_rotation_checks ⟨"sec", "HS256", 900, 604800, 900⟩ 5
      ⟨[⟨1, "alice", "a@b", "h", true,
          some ⟨⟨some "a@b", some "refresh", 0, 100⟩, "sec", "HS256"⟩⟩], []⟩
      ⟨⟨some "a@b", some "refresh", 0, 100⟩, "sec", "HS256"⟩).2.2 (by decide)).1.mpr
    ⟨⟨1, "alice", "a@b", "h", true,
        some ⟨⟨some "a@b", some "refresh", 0, 100⟩, "sec", "HS256"⟩⟩,
     by decide, rfl, rfl, by decide, rfl, rfl⟩

/-- Counterexample to C2 as stated: on the Session-Store fast path a validly
signed, unexpired token of type `"access"` (not `"refresh"`) passes rotation,
so check (b) is not applied on that path. -/
theorem refresh_fast_path_skips_type_check :
    (UserService.refresh_access_token ⟨"sec", "HS256", 900, 604800, 900⟩ 5
        ⟨[⟨1, "alice", "a@b", "h", true, none⟩],
         [(RKey.rt ⟨⟨some "a@b", some "access", 0, 100⟩, "sec", "HS256"⟩, "a@b")]⟩
        ⟨⟨some "a@b", some "access", 0, 100⟩, "sec", "HS256"⟩).1.isOk = true ∧
    (⟨⟨some "a@b", some "access", 0, 100⟩, "sec", "HS256"⟩ : JwtToken).payload.token_type ≠
      some REFRESH_TOKEN_TYPE := by
  constructor
  · decide
  · decide

/-! ## C3 — password-reset confirm failure branches -/

/-- Characterization of a successful `decode_reset_token`. -/
theorem decode_reset_eq_ok_iff {s : Settings} {now : Int} {tok : JwtToken} {c : Claims} :
    decode_reset_token s now tok = Except.ok c ↔
      (tok.key = s.JWT_SECRET ∧ tok.alg = "HS256" ∧ now ≤ tok.payload.exp ∧
        tok.payload.token_type = some RESET_TOKEN_TYPE ∧ c = tok.payload) := by
  unfold decode_reset_token jwtDecode
  by_cases hp : (tok.key = s.JWT_SECRET ∧ tok.alg = "HS256" ∧ now ≤ tok.payload.exp)
  · rw [if_pos hp]
    show (if tok.payload.token_type ≠ some RESET_TOKEN_TYPE then Except.error ()
          else Except.ok tok.payload) = Except.ok c ↔ _
    by_cases ht : tok.payload.token_type = some RESET_TOKEN_TYPE
    · rw [if_neg (by simp [ht])]
      constructor
      · intro h
        injection h with h4
        exact ⟨hp.1, hp.2.1, hp.2.2, ht, h4.symm⟩
      · rintro ⟨-, -, -, -, rfl⟩
        rfl
    · rw [if_pos ht]
      constructor
      · intro h
        exact (Except.noConfusion h : False).elim
      · rintro ⟨-, -, -, hty, -⟩
        exact absurd hty ht
  · rw [if_neg hp]
    show (Except.error () : Except Unit Claims) = Except.ok c ↔ _
    constructor
    · intro h
      exact (Except.noConfusion h : False).elim
    · rintro ⟨h1, h2, h3, -, -⟩
      exact absurd ⟨h1, h2, h3⟩ hp

/-- Deleting a key removes it from the store. -/
theorem rget_rdel_self (r : RedisState) (k : RKey) : rget (rdel r k) k = none := by
  unfold rget rdel
  have hfind : List.find? (fun e => decide (e.1 = k)) (r.filter (fun e => decide (e.1 ≠ k)))
      = none := by
    rw [List.find?_eq_none]
    intro a ha
    have hmem := (List.mem_filter.mp ha).2
    simp only [ne_eq, decide_not, Bool.not_eq_true', decide_eq_false_iff_not] at hmem
    simp [hmem]
  simp only [ne_eq] at hfind ⊢
  rw [hfind]
  rfl

/-- When the Session Store has no `pr:<token>` entry, `reset_password` fails
immediately and changes nothing. -/
theorem reset_password_absent {s : Settings} {now : Int} {hashFn : String → String}
    {st : AppState} {token : JwtToken} (pw : String)
    (h : rget st.redis (.pr token) = none) :
    UserService.reset_password s now hashFn st token pw =
      (ResetOutcome.invalidOrExpired, st) := by
  unfold UserService.reset_password
  simp only [h]

/-- A successful `reset_password` arose from the final branch: the reset
entry was present, the token decoded with the right type and subject, the
user existed, and the resulting state is exactly the triple mutation. -/
theorem reset_password_ok_char {s : Settings} {now : Int} {hashFn : String → String}
    {st st2 : AppState} {token : JwtToken} {pw : String}
    (h : UserService.reset_password s now hashFn st token pw = (ResetOutcome.ok, st2)) :
    ∃ email user, rget st.redis (.pr token) = some email ∧
      UserRepository.get_user_by_email st.users email = some user ∧
      st2 = ⟨UserRepository.set_refresh_token
              (UserRepository.set_password_hash st.users user.email (hashFn pw)) email none,
             rdel st.redis (.pr token)⟩ := by
  cases hr : rget st.redis (.pr token) with
  | none =>
    rw [reset_password_absent pw hr] at h
    injection h with h1 h2
    exact ResetOutcome.noConfusion h1
  | some email =>
    cases hd : decode_reset_token s now token with
    | error e =>
      have hF : UserService.reset_password s now hashFn st token pw =
          (ResetOutcome.invalidOrExpired, st) := by
        unfold UserService.reset_password
        simp only [hr, hd]
      rw [hF] at h
      injection h with h1 h2
      exact ResetOutcome.noConfusion h1
    | ok payload =>
      by_cases hc : (payload.token_type ≠ some RESET_TOKEN_TYPE ∨ payload.sub ≠ some email)
      · have hF : UserService.reset_password s now hashFn st token pw =
            (ResetOutcome.invalidOrExpired, st) := by
          unfold UserService.reset_password
          simp only [hr, hd]
          rw [if_pos hc]
        rw [hF] at h
        injection h with h1 h2
        exact ResetOutcome.noConfusion h1
      · cases hu : UserRepository.get_user_by_email st.users email with
        | none =>
          have hF : UserService.reset_password s now hashFn st token pw =
              (ResetOutcome.userNotFound, { st with redis := rdel st.redis (.pr token) }) := by
            unfold UserService.reset_password
            simp only [hr, hd, hu]
            rw [if_neg hc]
          rw [hF] at h
          injection h with h1 h2
          exact ResetOutcome.noConfusion h1
        | some user =>
          have hF : UserService.reset_password s now hashFn st token pw =
              (ResetOutcome.ok,
               ⟨UserRepository.set_refresh_token
                  (UserRepository.set_password_hash st.users user.email (hashFn pw)) email none,
                rdel st.redis (.pr token)⟩) := by
            unfold UserService.reset_password
            simp only [hr, hd, hu]
            rw [if_neg hc]
          rw [hF] at h
          injection h with h1 h2
          exact ⟨email, user, rfl, hu, h2.symm⟩

/-- C3 (amended): failing `reset_password` calls never touch the `users`
table (password hash and User-row refresh token are untouched on every
failure branch), and the invalid-token failures (missing Session Store
entry, undecodable token, wrong type or subject mismatch) leave the whole
state unchanged; but on the user-not-found branch the Session Store reset
entry — which was present — is deleted before the failure is raised. -/
theorem reset_password_failure_frame (s : Settings) (now : Int) (hashFn : String → String)
    (st : AppState) (token : JwtToken) (pw : String) :
    (∀ o st2, UserService.reset_password s now hashFn st token pw = (o, st2) →
      o ≠ ResetOutcome.ok → st2.users = st.users) ∧
    (∀ st2, UserService.reset_password s now hashFn st token pw =
        (ResetOutcome.invalidOrExpired, st2) → st2 = st) ∧
    (∀ st2, UserService.reset_password s now hashFn st token pw =
        (ResetOutcome.userNotFound, st2) →
      st2 = { st with redis := rdel st.redis (.pr token) } ∧
      rget st.redis (.pr token) ≠ none) := by
  have main : ∀ o st2, UserService.reset_password s now hashFn st token pw = (o, st2) →
      (o = ResetOutcome.invalidOrExpired → st2 = st) ∧
      (o = ResetOutcome.userNotFound →
        st2 = { st with redis := rdel st.redis (.pr token) } ∧
        rget st.redis (.pr token) ≠ none) ∧
      (o ≠ ResetOutcome.ok → st2.users = st.users) := by
    intro o st2 h
    cases hr : rget st.redis (.pr token) with
    | none =>
      rw [reset_password_absent pw hr] at h
      injection h with h1 h2
      subst h1; subst h2
      exact ⟨fun _ => rfl, fun hne => ResetOutcome.noConfusion hne, fun _ => rfl⟩
    | some email =>
      cases hd : decode_reset_token s now token with
      | error e =>
        have hF : UserService.reset_password s now hashFn st token pw =
            (ResetOutcome.invalidOrExpired, st) := by
          unfold UserService.reset_password
          simp only [hr, hd]
        rw [hF] at h
        injection h with h1 h2
        subst h1; subst h2
        exact ⟨fun _ => rfl, fun hne => ResetOutcome.noConfusion hne, fun _ => rfl⟩
      | ok payload =>
        by_cases hc : (payload.token_type ≠ some RESET_TOKEN_TYPE ∨ payload.sub ≠ some email)
        · have hF : UserService.reset_password s now hashFn st token pw =
              (ResetOutcome.invalidOrExpired, st) := by
            unfold UserService.reset_password
            simp only [hr, hd]
            rw [if_pos hc]
          rw [hF] at h
          injection h with h1 h2
          subst h1; subst h2
          exact ⟨fun _ => rfl, fun hne => ResetOutcome.noConfusion hne, fun _ => rfl⟩
        · cases hu : UserRepository.get_user_by_email st.users email with
          | none =>
            have hF : UserService.reset_password s now hashFn st token pw =
                (ResetOutcome.userNotFound, { st with redis := rdel st.redis (.pr token) }) := by
              unfold UserService.reset_password
              simp only [hr, hd, hu]
              rw [if_neg hc]
            rw [hF] at h
            injection h with h1 h2
            subst h1; subst h2
            refine ⟨fun hne => ResetOutcome.noConfusion hne, fun _ => ⟨rfl, ?_⟩, fun _ => rfl⟩
            simp
          | some user =>
            have hF : UserService.reset_password s now hashFn st token pw =
                (ResetOutcome.ok,
                 ⟨UserRepository.set_refresh_token
                    (UserRepository.set_password_hash st.users user.email (hashFn pw)) email none,
                  rdel st.redis (.pr token)⟩) := by
              unfold UserService.reset_password
              simp only [hr, hd, hu]
              rw [if_neg hc]
            rw [hF] at h
            injection h with h1 h2
            subst h1; subst h2
            exact ⟨fun hne => ResetOutcome.noConfusion hne,
                   fun hne => ResetOutcome.noConfusion hne,
                   fun hne => absurd rfl hne⟩
  refine ⟨?_, ?_, ?_⟩
  · intro o st2 h hne
    exact ((main o st2 h).2.2) hne
  · intro st2 h
    exact (main _ st2 h).1 rfl
  · intro st2 h
    exact ((main _ st2 h).2.1) rfl

/-- Witness for C3: a concrete user-not-found failure, where the resulting
state equals the original with the reset entry deleted (and the entry was
present). -/
theorem reset_password_failure_frame_witness :
    (⟨[], []⟩ : AppState) =
      { (⟨[], [(RKey.pr ⟨⟨some "a@b", some RESET_TOKEN_TYPE, 0, 100⟩, "sec", "HS256"⟩, "a@b")]⟩ :
          AppState) with
        redis := rdel [(RKey.pr ⟨⟨some "a@b", some RESET_TOKEN_TYPE, 0, 100⟩, "sec", "HS256"⟩,
                        "a@b")]
          (.pr ⟨⟨some "a@b", some RESET_TOKEN_TYPE, 0, 100⟩, "sec", "HS256"⟩) } ∧
    rget [(RKey.pr ⟨⟨some "a@b", some RESET_TOKEN_TYPE, 0, 100⟩, "sec", "HS256"⟩, "a@b")]
      (.pr ⟨⟨some "a@b", some RESET_TOKEN_TYPE, 0, 100⟩, "sec", "HS256"⟩) ≠ none :=
  (reset_password_failure_frame ⟨"sec", "HS256", 900, 604800, 900⟩ 5 (fun p => p ++ "#h")
      ⟨[], [(RKey.pr ⟨⟨some "a@b", some RESET_TOKEN_TYPE, 0, 100⟩, "sec", "HS256"⟩, "a@b")]⟩
      ⟨⟨some "a@b", some RESET_TOKEN_TYPE, 0, 100⟩, "sec", "HS256"⟩ "npw").2.2
    ⟨[], []⟩ (by decide)

/-- Counterexample to C3 as stated: on the user-not-found failure branch the
Session Store reset entry is NOT left as it was — it is deleted before the
failure is raised. -/
theorem reset_password_user_not_found_deletes_entry :
    let s : Settings := ⟨"sec", "HS256", 900, 604800, 900⟩
    let t : JwtToken := ⟨⟨some "a@b", some RESET_TOKEN_TYPE, 0, 100⟩, "sec", "HS256"⟩
    let st : AppState := ⟨[], [(RKey.pr t, "a@b")]⟩
    (UserService.reset_password s 5 (fun p => p ++ "#h") st t "npw").1 =
        ResetOutcome.userNotFound ∧
    rget st.redis (.pr t) = some "a@b" ∧
    rget (UserService.reset_password s 5 (fun p => p ++ "#h") st t "npw").2.redis (.pr t) =
        none := by
  exact ⟨by decide, by decide, by decide⟩

/-! ## C4 — revocation effects of logout and password reset -/

/-- Filtering out one key does not change lookups of a different key. -/
theorem find?_filter_ne (t : List (RKey × String)) (k k2 : RKey) (h : k2 ≠ k) :
    List.find? (fun e => e.1 = k2) (t.filter (fun e => e.1 ≠ k)) =
      List.find? (fun e => e.1 = k2) t := by
  induction t with
  | nil => rfl
  | cons e t ih =>
    by_cases he : e.1 = k
    · have he2 : ¬(e.1 = k2) := fun hc => h (by rw [← hc, he])
      rw [List.filter_cons_of_neg (by simp [he]), List.find?_cons_of_neg _ (by simp [he2])]
      exact ih
    · rw [List.filter_cons_of_pos (by simp [he])]
      by_cases he2 : e.1 = k2
      · rw [List.find?_cons_of_pos _ (by simp [he2]), List.find?_cons_of_pos _ (by simp [he2])]
      · rw [List.find?_cons_of_neg _ (by simp [he2]), List.find?_cons_of_neg _ (by simp [he2])]
        exact ih

/-- Deleting one key leaves every other key's entry unchanged. -/
theorem rget_rdel_of_ne (r : RedisState) (k k2 : RKey) (h : k2 ≠ k) :
    rget (rdel r k) k2 = rget r k2 := by
  unfold rget rdel
  rw [find?_filter_ne r k k2 h]

/-- Liveness (`exists`) agrees with `get` presence. -/
theorem rexists_eq_isSome_rget (r : RedisState) (k : RKey) :
    rexists r k = (rget r k).isSome := by
  unfold rexists rget
  induction r with
  | nil => rfl
  | cons e t ih =>
    by_cases he : e.1 = k
    · simp [List.any_cons, he, List.find?_cons_of_pos _ (by exact decide_eq_true he)]
    · rw [List.find?_cons_of_neg _ (by simp [he]), List.any_cons]
      simpa [he] using ih

/-- C4 (amended): logout clears only the User-row refresh-token field of the
matching user and leaves the Session Store untouched (every refresh token's
liveness is unaffected); a successful password reset deletes the
PASSWORD-RESET Session Store entry unconditionally and clears the User-row
refresh token, but does NOT delete the refresh token's `rt:` Session Store
entry — any live refresh entry still passes the liveness check afterwards. -/
theorem logout_and_reset_revocation (s : Settings) (now : Int) (hashFn : String → String)
    (st : AppState) (email : String) (token : JwtToken) (pw : String) :
    ((UserService.logout st email).redis = st.redis ∧
     (∀ t : JwtToken, is_refresh_token_active (UserService.logout st email).redis t =
        is_refresh_token_active st.redis t) ∧
     (UserService.logout st email).users =
       st.users.map (fun u => if u.email = email then { u with refresh_token := none } else u)) ∧
    (∀ st2, UserService.reset_password s now hashFn st token pw = (ResetOutcome.ok, st2) →
      rget st2.redis (.pr token) = none ∧
      (∀ t : JwtToken, rget st2.redis (.rt t) = rget st.redis (.rt t)) ∧
      (∀ t : JwtToken, is_refresh_token_active st2.redis t =
        is_refresh_token_active st.redis t)) := by
  constructor
  · exact ⟨rfl, fun t => rfl, rfl⟩
  · intro st2 h
    obtain ⟨em, user, hr, hu, hst2⟩ := reset_password_ok_char h
    have hredis : st2.redis = rdel st.redis (.pr token) := by rw [hst2]
    refine ⟨?_, ?_, ?_⟩
    · rw [hredis]
      exact rget_rdel_self _ _
    · intro t
      rw [hredis]
      exact rget_rdel_of_ne _ _ _ (by intro hc; exact RKey.noConfusion hc)
    · intro t
      show rexists st2.redis (.rt t) = rexists st.redis (.rt t)
      rw [rexists_eq_isSome_rget, rexists_eq_isSome_rget, hredis,
          rget_rdel_of_ne _ _ _ (by intro hc; exact RKey.noConfusion hc)]

/-- Witness for C4: a concrete successful reset, after which the reset entry
is gone but the refresh-token entry's value is unchanged. -/
theorem logout_and_reset_revocation_witness :
    let s : Settings := ⟨"sec", "HS256", 900, 604800, 900⟩
    let rt_tok : JwtToken := ⟨⟨some "a@b", some "refresh", 0, 1000⟩, "sec", "HS256"⟩
    let pr_tok : JwtToken := ⟨⟨some "a@b", some RESET_TOKEN_TYPE, 0, 100⟩, "sec", "HS256"⟩
    let st : AppState := ⟨[⟨1, "alice", "a@b", "h", true, some rt_tok⟩],
                          [(RKey.rt rt_tok, "a@b"), (RKey.pr pr_tok, "a@b")]⟩
    rget (UserService.reset_password s 5 (fun p => p ++ "#h") st pr_tok "npw").2.redis
        (.pr pr_tok) = none ∧
    rget (UserService.reset_password s 5 (fun p => p ++ "#h") st pr_tok "npw").2.redis
        (.rt rt_tok) = rget st.redis (.rt rt_tok) := by
  intro s rt_tok pr_tok st
  have h := (logout_and_reset_revocation s 5 (fun p => p ++ "#h") st "a@b" pr_tok "npw").2
    (UserService.reset_password s 5 (fun p => p ++ "#h") st pr_tok "npw").2 (by decide)
  exact ⟨h.1, h.2.1 rt_tok⟩

/-- Counterexample to C4 as stated: after a concrete successful password
reset, the old refresh token's Session Store entry is still present and still
passes the liveness check — it is not deleted by the reset. -/
theorem reset_password_leaves_refresh_entry_live :
    let s : Settings := ⟨"sec", "HS256", 900, 604800, 900⟩
    let rt_tok : JwtToken := ⟨⟨some "a@b", some "refresh", 0, 1000⟩, "sec", "HS256"⟩
    let pr_tok : JwtToken := ⟨⟨some "a@b", some RESET_TOKEN_TYPE, 0, 100⟩, "sec", "HS256"⟩
    let st : AppState := ⟨[⟨1, "alice", "a@b", "h", true, some rt_tok⟩],
                          [(RKey.rt rt_tok, "a@b"), (RKey.pr pr_tok, "a@b")]⟩
    (UserService.reset_password s 5 (fun p => p ++ "#h") st pr_tok "npw").1 =
        ResetOutcome.ok ∧
    is_refresh_token_active
        (UserService.reset_password s 5 (fun p => p ++ "#h") st pr_tok "npw").2.redis
        rt_tok = true := by
  exact ⟨by decide, by decide⟩

/-! ## C5 — password-reset token is single-use -/

/-- C5 (confirmed): after one successful confirm with a token, the resulting
state has no Session Store entry for it, so every subsequent confirm with the
same token — after any number of further attempts — fails with
`InvalidOrExpiredToken` and leaves the state fixed. -/
theorem reset_token_single_use (s : Settings) (now : Int) (hashFn : String → String)
    (st st2 : AppState) (token : JwtToken) (pw : String)
    (h : UserService.reset_password s now hashFn st token pw = (ResetOutcome.ok, st2)) :
    (∀ pws, resetSeq s now hashFn token st2 pws = st2) ∧
    (∀ pw2, UserService.reset_password s now hashFn st2 token pw2 =
      (ResetOutcome.invalidOrExpired, st2)) := by
  obtain ⟨email, user, hr, hu, hst2⟩ := reset_password_ok_char h
  have habs : rget st2.redis (.pr token) = none := by
    rw [hst2]
    exact rget_rdel_self _ _
  have hfix : ∀ pw2, UserService.reset_password s now hashFn st2 token pw2 =
      (ResetOutcome.invalidOrExpired, st2) := fun pw2 => reset_password_absent pw2 habs
  refine ⟨?_, hfix⟩
  intro pws
  induction pws with
  | nil => rfl
  | cons p t ih =>
    unfold resetSeq at ih ⊢
    rw [List.foldl_cons, congrArg Prod.snd (hfix p)]
    exact ih

/-- Witness for C5: a concrete successful confirm followed by a second
confirm with the same token, which fails with the invalid-token error. -/
theorem reset_token_single_use_witness :
    let s : Settings := ⟨"sec", "HS256", 900, 604800, 900⟩
    let t : JwtToken := ⟨⟨some "a@b", some RESET_TOKEN_TYPE, 0, 100⟩, "sec", "HS256"⟩
    let st1 : AppState := ⟨[⟨1, "alice", "a@b", "x1#h", true, none⟩], []⟩
    UserService.reset_password s 5 (fun p => p ++ "#h") st1 t "x2" =
      (ResetOutcome.invalidOrExpired, st1) := by
  intro s t st1
  exact (reset_token_single_use s 5 (fun p => p ++ "#h")
    ⟨[⟨1, "alice", "a@b", "h", true, none⟩], [(RKey.pr t, "a@b")]⟩ st1 t "x1"
    (by decide)).2 "x2"

/-! ## C10 — contact removal at the service interface -/

/-- C10 (confirmed): the service-level `remove_contact` returns `True`
whether or not an owned contact with that id exists (the repository's
`None`/row result is discarded), a nonexistent or other-owned target leaves
the contact list unchanged, and the only contact ever removed is one with the
requested id owned by the requesting user — never another user's contact. -/
theorem remove_contact_service (contacts : List Contact) (contact_id user_id : Nat) :
    (ContactService.remove_contact contacts contact_id user_id).2 = true ∧
    (∀ c ∈ contacts, c.user_id ≠ user_id →
      c ∈ (ContactService.remove_contact contacts contact_id user_id).1) ∧
    (∀ c ∈ contacts, c ∉ (ContactService.remove_contact contacts contact_id user_id).1 →
      c.id = contact_id ∧ c.user_id = user_id) ∧
    (ContactRepository.get_contact_by_id contacts contact_id user_id = none →
      (ContactService.remove_contact contacts contact_id user_id).1 = contacts) := by
  unfold ContactService.remove_contact ContactRepository.remove_contact
  cases hfind : ContactRepository.get_contact_by_id contacts contact_id user_id with
  | none =>
    exact ⟨rfl, fun c hc _ => hc, fun c hc hnc => absurd hc hnc, fun _ => rfl⟩
  | some c0 =>
    refine ⟨rfl, ?_, ?_, ?_⟩
    · intro c hc hne
      exact (List.mem_eraseP_of_neg (by simp [hne])).mpr hc
    · intro c hc hnc
      by_cases hp : (c.id = contact_id ∧ c.user_id = user_id)
      · exact hp
      · exact absurd ((List.mem_eraseP_of_neg (by simpa using hp)).mpr hc) hnc
    · intro hnone
      exact Option.noConfusion hnone

/-- Witness for C10: concrete two-user contact list — removing contact 1 as
user 2 (who does not own it) returns `True` and deletes nothing. -/
theorem remove_contact_service_witness :
    (⟨1, 1, "A", "B", "a@b", "1", none, none⟩ : Contact) ∈
      (ContactService.remove_contact
        [⟨1, 1, "A", "B", "a@b", "1", none, none⟩] 1 2).1 ∧
    (ContactService.remove_contact [⟨1, 1, "A", "B", "a@b", "1", none, none⟩] 1 2).2 = true := by
  constructor
  · exact (remove_contact_service [⟨1, 1, "A", "B", "a@b", "1", none, none⟩] 1 2).2.1
      ⟨1, 1, "A", "B", "a@b", "1", none, none⟩ (by decide) (by decide)
  · exact (remove_contact_service [⟨1, 1, "A", "B", "a@b", "1", none, none⟩] 1 2).1

/-! ## C8 — read-through caching with per-class TTLs -/

/-- C8 (confirmed): both cached queries compute the strategy key and look it
up; on a hit the cached value is returned with the cache untouched — the
repository result plays no role — and on a miss the repository result is
returned after being stored under that key with the class TTL: 60 seconds
for search, 600 seconds for birthdays. -/
theorem read_through_cache (cache : ContactsCache) (user_id : Nat)
    (first_name last_name email : Option String) (skip limit : Int) (days_ahead : Nat)
    (repoResult : List Contact) :
    (SEARCH_TTL = 60 ∧ BIRTHDAYS_TTL = 600) ∧
    (∀ v, cacheGet cache (make_search_key user_id first_name last_name email skip limit) =
        some v →
      ∀ r2 : List Contact,
        ContactService.search_contacts cache user_id first_name last_name email skip limit
          r2 = (v, cache)) ∧
    (cacheGet cache (make_search_key user_id first_name last_name email skip limit) = none →
      ContactService.search_contacts cache user_id first_name last_name email skip limit
        repoResult =
        (repoResult,
         cacheSet cache (make_search_key user_id first_name last_name email skip limit)
           repoResult 60)) ∧
    (∀ v, cacheGet cache (make_birthdays_key user_id days_ahead) = some v →
      ∀ r2 : List Contact,
        ContactService.upcoming_birthdays cache user_id days_ahead r2 = (v, cache)) ∧
    (cacheGet cache (make_birthdays_key user_id days_ahead) = none →
      ContactService.upcoming_birthdays cache user_id days_ahead repoResult =
        (repoResult, cacheSet cache (make_birthdays_key user_id days_ahead) repoResult 600)) := by
  refine ⟨⟨rfl, rfl⟩, ?_, ?_, ?_, ?_⟩
  · intro v hv r2
    unfold ContactService.search_contacts
    simp only [hv]
  · intro hv
    unfold ContactService.search_contacts
    simp only [hv]
    rfl
  · intro v hv r2
    unfold ContactService.upcoming_birthdays
    simp only [hv]
  · intro hv
    unfold ContactService.upcoming_birthdays
    simp only [hv]
    rfl

/-- Witness for C8: a concrete birthdays hit returns the cached list without
consulting the repository result, and a concrete search miss stores the
repository result under the strategy key with TTL 60. -/
theorem read_through_cache_witness :
    ContactService.upcoming_birthdays
        [(make_birthdays_key 7 30, [⟨1, 7, "A", "B", "a@b", "1", none, none⟩], 600)] 7 30
        [] =
      ([⟨1, 7, "A", "B", "a@b", "1", none, none⟩],
       [(make_birthdays_key 7 30, [⟨1, 7, "A", "B", "a@b", "1", none, none⟩], 600)]) ∧
    ContactService.search_contacts [] 7 none none none 0 10
        [⟨1, 7, "A", "B", "a@b", "1", none, none⟩] =
      ([⟨1, 7, "A", "B", "a@b", "1", none, none⟩],
       cacheSet [] (make_search_key 7 none none none 0 10)
         [⟨1, 7, "A", "B", "a@b", "1", none, none⟩] 60) := by
  constructor
  · exact (read_through_cache
      [(make_birthdays_key 7 30, [⟨1, 7, "A", "B", "a@b", "1", none, none⟩], 600)]
      7 none none none 0 10 30 []).2.2.2.1
      [⟨1, 7, "A", "B", "a@b", "1", none, none⟩] (by decide) []
  · exact (read_through_cache [] 7 none none none 0 10 30
      [⟨1, 7, "A", "B", "a@b", "1", none, none⟩]).2.2.1 rfl

/-! ## C7 — birthday range query -/

/-- Totality of `charListLe`. -/
theorem charListLe_total : ∀ as bs : List Char, charListLe as bs = true ∨ charListLe bs as = true
  | [], _ => by left; rfl
  | _ :: _, [] => by right; rfl
  | a :: as, b :: bs => by
    unfold charListLe
    by_cases hab : a.toNat < b.toNat
    · left
      rw [if_pos hab]
    · by_cases hba : b.toNat < a.toNat
      · right
        rw [if_pos hba]
      · rw [if_neg hab, if_neg hba, if_neg hba, if_neg hab]
        exact charListLe_total as bs

/-- Transitivity of `charListLe`. -/
theorem charListLe_trans : ∀ as bs cs : List Char,
    charListLe as bs = true → charListLe bs cs = true → charListLe as cs = true
  | [], _, _ => by intro _ _; rfl
  | a :: as, [], _ => by intro h _; exact absurd h (by simp [charListLe])
  | a :: as, b :: bs, [] => by intro _ h; exact absurd h (by simp [charListLe])
  | a :: as, b :: bs, c :: cs => by
    intro h1 h2
    unfold charListLe at h1 h2 ⊢
    by_cases hab : a.toNat < b.toNat
    · by_cases hbc : b.toNat < c.toNat
      · rw [if_pos (by omega)]
      · by_cases hcb : c.toNat < b.toNat
        · rw [if_neg hbc, if_pos hcb] at h2
          exact absurd h2 (by simp)
        · have : b.toNat = c.toNat := by omega
          rw [if_pos (by omega)]
    · by_cases hba : b.toNat < a.toNat
      · rw [if_neg hab, if_pos hba] at h1
        exact absurd h1 (by simp)
      · have hab2 : a.toNat = b.toNat := by omega
        by_cases hbc : b.toNat < c.toNat
        · rw [if_pos (by omega)]
        · by_cases hcb : c.toNat < b.toNat
          · rw [if_neg hbc, if_pos hcb] at h2
            exact absurd h2 (by simp)
          · rw [if_neg hab, if_neg hba] at h1
            rw [if_neg hbc, if_neg hcb] at h2
            rw [if_neg (by omega), if_neg (by omega)]
            exact charListLe_trans as bs cs h1 h2

/-- Totality of `strLe`. -/
theorem strLe_total (a b : String) : strLe a b = true ∨ strLe b a = true :=
  charListLe_total a.data b.data

/-- Transitivity of `strLe`. -/
theorem strLe_trans {a b c : String} (h1 : strLe a b = true) (h2 : strLe b c = true) :
    strLe a c = true :=
  charListLe_trans a.data b.data c.data h1 h2

/-- Membership in an insertion. -/
theorem mem_insertByKey {c a : Contact} {l : List Contact} :
    a ∈ insertByKey c l ↔ a = c ∨ a ∈ l := by
  induction l with
  | nil => simp [insertByKey]
  | cons x xs ih =>
    unfold insertByKey
    by_cases hc : strLe (birthdayKey c) (birthdayKey x) = true
    · rw [if_pos hc]
      simp [List.mem_cons]
    · rw [if_neg hc]
      simp [List.mem_cons, ih]
      tauto

/-- Sorting preserves membership. -/
theorem mem_sortByKey {a : Contact} {l : List Contact} : a ∈ sortByKey l ↔ a ∈ l := by
  induction l with
  | nil => simp [sortByKey]
  | cons x xs ih =>
    unfold sortByKey
    rw [mem_insertByKey]
    simp [List.mem_cons, ih]

/-- Insertion preserves sortedness by the month-day key. -/
theorem pairwise_insertByKey {c : Contact} {l : List Contact}
    (h : l.Pairwise (fun a b => strLe (birthdayKey a) (birthdayKey b) = true)) :
    (insertByKey c l).Pairwise (fun a b => strLe (birthdayKey a) (birthdayKey b) = true) := by
  induction l with
  | nil => simp [insertByKey]
  | cons x xs ih =>
    rw [List.pairwise_cons] at h
    obtain ⟨hx, hxs⟩ := h
    unfold insertByKey
    by_cases hc : strLe (birthdayKey c) (birthdayKey x) = true
    · rw [if_pos hc, List.pairwise_cons]
      refine ⟨?_, List.pairwise_cons.mpr ⟨hx, hxs⟩⟩
      intro b hb
      rcases List.mem_cons.mp hb with rfl | hb
      · exact hc
      · exact strLe_trans hc (hx b hb)
    · rw [if_neg hc, List.pairwise_cons]
      refine ⟨?_, ih hxs⟩
      intro b hb
      rcases mem_insertByKey.mp hb with heq | hb
      · rw [heq]
        rcases strLe_total (birthdayKey c) (birthdayKey x) with h | h
        · exact absurd h hc
        · exact h
      · exact hx b hb

/-- The insertion sort sorts by the month-day key. -/
theorem sortByKey_pairwise (l : List Contact) :
    (sortByKey l).Pairwise (fun a b => strLe (birthdayKey a) (birthdayKey b) = true) := by
  induction l with
  | nil => exact List.Pairwise.nil
  | cons x xs ih => exact pairwise_insertByKey ih

/-- The SQL range condition holds exactly of contacts with a birthday whose
month-day key lies in the (possibly wrapped) window. -/
theorem bdayInRange_eq_true_iff (sk ek : String) (c : Contact) :
    bdayInRange sk ek c = true ↔ ∃ b : PDate, c.birthday = some b ∧
      (if strLe sk ek = true
       then (strLe sk (mmdd b.month b.day) = true ∧ strLe (mmdd b.month b.day) ek = true)
       else (strLe sk (mmdd b.month b.day) = true ∨ strLe (mmdd b.month b.day) ek = true)) := by
  cases hb : c.birthday with
  | none => simp [bdayInRange, hb]
  | some b =>
    simp only [bdayInRange, hb]
    by_cases hk : strLe sk ek = true
    · simp [hk]
    · simp [hk]

/-- C7 (confirmed): a contact is returned by `upcoming_birthdays` iff it
belongs to the user, has a non-null birthday, and its four-digit month-day
string lies in the inclusive window from today's `MMDD` to `(today +
days)`'s `MMDD` — a lexicographic range when the window does not wrap
(start key ≤ end key lexicographically) and the disjunction
`key ≥ start ∨ key ≤ end` when it wraps; only month and day of the birthday
participate, and results are ordered by the month-day key ascending. -/
theorem upcoming_birthdays_window (today : PDate) (days : Nat)
    (h1 : 1 ≤ days) (h2 : days ≤ 365) (user_id : Nat) (contacts : List Contact)
    (c : Contact) :
    (c ∈ ContactRepository.upcoming_birthdays contacts days user_id today ↔
      (c ∈ contacts ∧ c.user_id = user_id ∧ ∃ b : PDate, c.birthday = some b ∧
        (if strLe (mmdd today.month today.day)
              (mmdd (addDays today days).month (addDays today days).day) = true then
          (strLe (mmdd today.month today.day) (mmdd b.month b.day) = true ∧
           strLe (mmdd b.month b.day)
             (mmdd (addDays today days).month (addDays today days).day) = true)
         else
          (strLe (mmdd today.month today.day) (mmdd b.month b.day) = true ∨
           strLe (mmdd b.month b.day)
             (mmdd (addDays today days).month (addDays today days).day) = true)))) ∧
    (ContactRepository.upcoming_birthdays contacts days user_id today).Pairwise
      (fun a b => strLe (birthdayKey a) (birthdayKey b) = true) := by
  constructor
  · unfold ContactRepository.upcoming_birthdays
    simp only [mem_sortByKey, List.mem_filter, decide_eq_true_eq, bdayInRange_eq_true_iff]
    constructor
    · rintro ⟨hc, hu, -, hex⟩
      exact ⟨hc, hu, hex⟩
    · rintro ⟨hc, hu, b, hb, hcond⟩
      exact ⟨hc, ⟨hu, by rw [hb]; rfl, b, hb, hcond⟩⟩
  · unfold ContactRepository.upcoming_birthdays
    exact sortByKey_pairwise _

/-- Witness for C7: the spec's two examples.  With today = Dec 28 and
`days_ahead = 7` (window wraps to Jan 4) a contact with month-day 01-02 is
returned and one with 12-20 is not; with today = Jun 1 and `days_ahead = 7`
a contact with 06-05 is returned and one with 06-09 is not. -/
theorem upcoming_birthdays_window_witness :
    (⟨1, 1, "A", "B", "a@b", "1", some ⟨2000, 1, 2⟩, none⟩ : Contact) ∈
      ContactRepository.upcoming_birthdays
        [⟨1, 1, "A", "B", "a@b", "1", some ⟨2000, 1, 2⟩, none⟩,
         ⟨2, 1, "C", "D", "c@d", "2", some ⟨1990, 12, 20⟩, none⟩] 7 1 ⟨2025, 12, 28⟩ ∧
    (⟨2, 1, "C", "D", "c@d", "2", some ⟨1990, 12, 20⟩, none⟩ : Contact) ∉
      ContactRepository.upcoming_birthdays
        [⟨1, 1, "A", "B", "a@b", "1", some ⟨2000, 1, 2⟩, none⟩,
         ⟨2, 1, "C", "D", "c@d", "2", some ⟨1990, 12, 20⟩, none⟩] 7 1 ⟨2025, 12, 28⟩ ∧
    (⟨3, 1, "E", "F", "e@f", "3", some ⟨2000, 6, 5⟩, none⟩ : Contact) ∈
      ContactRepository.upcoming_birthdays
        [⟨3, 1, "E", "F", "e@f", "3", some ⟨2000, 6, 5⟩, none⟩,
         ⟨4, 1, "G", "H", "g@h", "4", some ⟨2000, 6, 9⟩, none⟩] 7 1 ⟨2025, 6, 1⟩ ∧
    (⟨4, 1, "G", "H", "g@h", "4", some ⟨2000, 6, 9⟩, none⟩ : Contact) ∉
      ContactRepository.upcoming_birthdays
        [⟨3, 1, "E", "F", "e@f", "3", some ⟨2000, 6, 5⟩, none⟩,
         ⟨4, 1, "G", "H", "g@h", "4", some ⟨2000, 6, 9⟩, none⟩] 7 1 ⟨2025, 6, 1⟩ := by
  refine ⟨?_, by decide, ?_, by decide⟩
  · exact (upcoming_birthdays_window ⟨2025, 12, 28⟩ 7 (by decide) (by decide) 1
      [⟨1, 1, "A", "B", "a@b", "1", some ⟨2000, 1, 2⟩, none⟩,
       ⟨2, 1, "C", "D", "c@d", "2", some ⟨1990, 12, 20⟩, none⟩]
      ⟨1, 1, "A", "B", "a@b", "1", some ⟨2000, 1, 2⟩, none⟩).1.mpr
      ⟨by decide, rfl, ⟨2000, 1, 2⟩, rfl, by decide⟩
  · exact (upcoming_birthdays_window ⟨2025, 6, 1⟩ 7 (by decide) (by decide) 1
      [⟨3, 1, "E", "F", "e@f", "3", some ⟨2000, 6, 5⟩, none⟩,
       ⟨4, 1, "G", "H", "g@h", "4", some ⟨2000, 6, 9⟩, none⟩]
      ⟨3, 1, "E", "F", "e@f", "3", some ⟨2000, 6, 5⟩, none⟩).1.mpr
      ⟨by decide, rfl, ⟨2000, 6, 5⟩, rfl, by decide⟩

/-! ## C6 — cache-key normalization, namespacing and digest collisions -/

set_option maxRecDepth 4000

/-- Round-trip: `Char.ofNat` inverts `Char.toNat` below the surrogate range. -/
theorem toNat_ofNat_of_lt {n : Nat} (h : n < 55296) : (Char.ofNat n).toNat = n := by
  simp [Char.ofNat, Nat.isValidChar, h, Char.ofNatAux, Char.toNat]
  rfl

/-- The code point of a lowercased character. -/
theorem pyLowerChar_toNat (c : Char) :
    (pyLowerChar c).toNat =
      if 65 ≤ c.toNat ∧ c.toNat ≤ 90 then c.toNat + 32 else c.toNat := by
  by_cases h : 65 ≤ c.toNat ∧ c.toNat ≤ 90
  · rw [if_pos h]
    unfold pyLowerChar
    rw [if_pos h]
    exact toNat_ofNat_of_lt (by omega)
  · rw [if_neg h]
    unfold pyLowerChar
    rw [if_neg h]

/-- No character with code point in `[65, 122]` is Python whitespace. -/
theorem isPySpace_eq_false_of_alpha {c : Char} (h1 : 65 ≤ c.toNat) (h2 : c.toNat ≤ 122) :
    isPySpace c = false := by
  unfold isPySpace pySpaceCodes
  simp only [List.contains_cons, List.contains_nil, Bool.or_false, Bool.or_eq_false_iff,
    beq_eq_false_iff_ne, ne_eq]
  repeat' apply And.intro
  all_goals omega

/-- Whitespace-ness only depends on the code point. -/
theorem isPySpace_eq_of_toNat_eq {a b : Char} (h : a.toNat = b.toNat) :
    isPySpace a = isPySpace b := by
  unfold isPySpace
  rw [show a.toNat = b.toNat from h]

/-- Characters with equal lowercasings agree on whitespace-ness. -/
theorem isPySpace_eq_of_lower_eq {a b : Char} (h : pyLowerChar a = pyLowerChar b) :
    isPySpace a = isPySpace b := by
  have hn := congrArg Char.toNat h
  rw [pyLowerChar_toNat, pyLowerChar_toNat] at hn
  by_cases ha : 65 ≤ a.toNat ∧ a.toNat ≤ 90
  · by_cases hb : 65 ≤ b.toNat ∧ b.toNat ≤ 90
    · rw [if_pos ha, if_pos hb] at hn
      exact isPySpace_eq_of_toNat_eq (by omega)
    · rw [if_pos ha, if_neg hb] at hn
      rw [isPySpace_eq_false_of_alpha ha.1 (by omega),
          isPySpace_eq_false_of_alpha (by omega) (by omega)]
  · by_cases hb : 65 ≤ b.toNat ∧ b.toNat ≤ 90
    · rw [if_neg ha, if_pos hb] at hn
      rw [isPySpace_eq_false_of_alpha (by omega) (by omega),
          isPySpace_eq_false_of_alpha hb.1 (by omega)]
    · rw [if_neg ha, if_neg hb] at hn
      exact isPySpace_eq_of_toNat_eq hn

/-- Lowercasing commutes with dropping leading whitespace, for lists with
equal lowercasings. -/
theorem lower_dropWhile_eq : ∀ {d1 d2 : List Char}, pyLowerChars d1 = pyLowerChars d2 →
    pyLowerChars (d1.dropWhile isPySpace) = pyLowerChars (d2.dropWhile isPySpace)
  | [], [] => fun _ => rfl
  | [], _ :: _ => fun h => absurd h (by simp [pyLowerChars])
  | _ :: _, [] => fun h => absurd h (by simp [pyLowerChars])
  | a :: t1, b :: t2 => by
    intro h
    simp only [pyLowerChars, List.map_cons, List.cons.injEq] at h
    obtain ⟨hab, ht⟩ := h
    have hs := isPySpace_eq_of_lower_eq hab
    by_cases ha : isPySpace a = true
    · rw [List.dropWhile_cons_of_pos ha, List.dropWhile_cons_of_pos (by rw [← hs]; exact ha)]
      exact lower_dropWhile_eq ht
    · rw [List.dropWhile_cons_of_neg ha, List.dropWhile_cons_of_neg (by rw [← hs]; exact ha)]
      simp only [pyLowerChars, List.map_cons, List.cons.injEq]
      exact ⟨hab, ht⟩

/-- Strings with equal lowercasings normalize identically. -/
theorem norm_eq_of_lower_eq {s1 s2 : String} (h : pyLowerChars s1.data = pyLowerChars s2.data) :
    _norm (some s1) = _norm (some s2) := by
  unfold _norm pyStripLower pyStripChars
  simp only [Option.getD_some]
  have h1 := lower_dropWhile_eq h
  have h2 : pyLowerChars ((s1.data.dropWhile isPySpace).reverse) =
      pyLowerChars ((s2.data.dropWhile isPySpace).reverse) := by
    unfold pyLowerChars at h1 ⊢
    rw [List.map_reverse, List.map_reverse, h1]
  have h3 := lower_dropWhile_eq h2
  unfold pyLowerChars at h3 ⊢
  rw [List.map_reverse, List.map_reverse, h3]

/-- Dropping leading whitespace skips a whitespace-only prefix. -/
theorem dropWhile_append_all {w l : List Char} (hw : ∀ c ∈ w, isPySpace c = true) :
    (w ++ l).dropWhile isPySpace = l.dropWhile isPySpace := by
  induction w with
  | nil => rfl
  | cons a t ih =>
    rw [List.cons_append, List.dropWhile_cons_of_pos (hw a (by simp))]
    exact ih (fun c hc => hw c (by simp [hc]))

/-- A whitespace-only list is dropped entirely. -/
theorem dropWhile_all_nil {w : List Char} (hw : ∀ c ∈ w, isPySpace c = true) :
    w.dropWhile isPySpace = [] := by
  have h := dropWhile_append_all (l := []) hw
  rwa [List.append_nil] at h

/-- A whitespace-only prefix being dropped leaves the rest untouched. -/
theorem all_of_dropWhile_nil {d : List Char} (h : d.dropWhile isPySpace = []) :
    ∀ c ∈ d, isPySpace c = true := by
  induction d with
  | nil => intro c hc; cases hc
  | cons a t ih =>
    by_cases ha : isPySpace a = true
    · rw [List.dropWhile_cons_of_pos ha] at h
      intro c hc
      rcases List.mem_cons.mp hc with rfl | hc
      · exact ha
      · exact ih h c hc
    · rw [List.dropWhile_cons_of_neg ha] at h
      exact absurd h (by simp)

/-- When something survives the leading strip, a suffix passes through. -/
theorem dropWhile_append_of_ne_nil {l w : List Char} (h : l.dropWhile isPySpace ≠ []) :
    (l ++ w).dropWhile isPySpace = l.dropWhile isPySpace ++ w := by
  induction l with
  | nil => exact absurd rfl h
  | cons a t ih =>
    by_cases ha : isPySpace a = true
    · rw [List.dropWhile_cons_of_pos ha] at h
      rw [List.cons_append, List.dropWhile_cons_of_pos ha, List.dropWhile_cons_of_pos ha]
      exact ih h
    · rw [List.cons_append, List.dropWhile_cons_of_neg ha, List.dropWhile_cons_of_neg ha]
      rfl

/-- Stripping ignores whitespace padding on both sides. -/
theorem pyStripChars_pad {w1 w2 d : List Char}
    (h1 : ∀ c ∈ w1, isPySpace c = true) (h2 : ∀ c ∈ w2, isPySpace c = true) :
    pyStripChars (w1 ++ d ++ w2) = pyStripChars d := by
  unfold pyStripChars
  rw [List.append_assoc, dropWhile_append_all h1]
  by_cases hd : d.dropWhile isPySpace = []
  · rw [dropWhile_append_all (all_of_dropWhile_nil hd), dropWhile_all_nil h2, hd]
  · rw [dropWhile_append_of_ne_nil hd, List.reverse_append,
        dropWhile_append_all (fun c hc => h2 c (List.mem_reverse.mp hc))]

/-- Normalization ignores whitespace padding. -/
theorem norm_pad {f : String} {w1 w2 : List Char}
    (h1 : ∀ c ∈ w1, isPySpace c = true) (h2 : ∀ c ∈ w2, isPySpace c = true) :
    _norm (some (w1 ++ f.data ++ w2).asString) = _norm (some f) := by
  unfold _norm pyStripLower
  simp only [Option.getD_some]
  have hdata : ((w1 ++ f.data ++ w2).asString).data = w1 ++ f.data ++ w2 :=
    List.toList_asString _
  rw [hdata, pyStripChars_pad h1 h2]

/-- A hex rendering always has exactly `f` digits. -/
theorem hexChars_length : ∀ (f n : Nat), (hexChars f n).length = f
  | 0, _ => rfl
  | f + 1, n => by
    unfold hexChars
    rw [List.length_append, hexChars_length f (n / 16)]
    rfl

/-- Left inverse: `digitVal` inverts `digitChar` on decimal digits. -/
theorem digitVal_digitChar (d : Nat) (h : d < 10) : digitVal (digitChar d) = d := by
  interval_cases d <;> rfl

/-- The fuelled decimal rendering evaluates back to its input. -/
theorem decimalVal_decimalAux : ∀ (f n : Nat), n < f → decimalVal (decimalAux f n) = n := by
  intro f
  induction f with
  | zero => intro n h; exact absurd h (by omega)
  | succ f ih =>
    intro n h
    unfold decimalAux
    by_cases h10 : n < 10
    · rw [if_pos h10]
      unfold decimalVal
      simp only [List.foldl_cons, List.foldl_nil]
      rw [digitVal_digitChar n h10]
      omega
    · rw [if_neg h10]
      unfold decimalVal
      rw [List.foldl_append]
      have ihv := ih (n / 10) (by omega)
      unfold decimalVal at ihv
      simp only [List.foldl_cons, List.foldl_nil]
      rw [ihv, digitVal_digitChar (n % 10) (by omega)]
      omega

/-- Decimal rendering is injective. -/
theorem natDecimalChars_inj {m n : Nat} (h : natDecimalChars m = natDecimalChars n) :
    m = n := by
  have hm := decimalVal_decimalAux (m + 1) m (by omega)
  have hn := decimalVal_decimalAux (n + 1) n (by omega)
  unfold natDecimalChars at h
  rw [← hm, ← hn, h]

/-- Truncation to 32 bits stays below `2^32`. -/
theorem w32_lt (n : Nat) : w32 n < 4294967296 := Nat.mod_lt _ (by omega)

/-- Each hash word produced by a block step is a 32-bit value. -/
theorem sha1Block_lt (h : Nat × Nat × Nat × Nat × Nat) (block : List Nat) :
    (sha1Block h block).1 < 4294967296 ∧ (sha1Block h block).2.1 < 4294967296 ∧
    (sha1Block h block).2.2.1 < 4294967296 ∧ (sha1Block h block).2.2.2.1 < 4294967296 ∧
    (sha1Block h block).2.2.2.2 < 4294967296 := by
  obtain ⟨h0, h1, h2, h3, h4⟩ := h
  unfold sha1Block
  rcases hsr : sha1Rounds 0 (sha1Schedule block) (h0, h1, h2, h3, h4) with ⟨a, b, c, d, e⟩
  simp only [hsr]
  exact ⟨w32_lt _, w32_lt _, w32_lt _, w32_lt _, w32_lt _⟩

/-- The block fold keeps every hash word 32-bit. -/
theorem foldl_sha1Block_lt (blocks : List (List Nat)) :
    ∀ init : Nat × Nat × Nat × Nat × Nat,
      init.1 < 4294967296 → init.2.1 < 4294967296 → init.2.2.1 < 4294967296 →
      init.2.2.2.1 < 4294967296 → init.2.2.2.2 < 4294967296 →
      (blocks.foldl sha1Block init).1 < 4294967296 ∧
      (blocks.foldl sha1Block init).2.1 < 4294967296 ∧
      (blocks.foldl sha1Block init).2.2.1 < 4294967296 ∧
      (blocks.foldl sha1Block init).2.2.2.1 < 4294967296 ∧
      (blocks.foldl sha1Block init).2.2.2.2 < 4294967296 := by
  induction blocks with
  | nil => intro init a b c d e; exact ⟨a, b, c, d, e⟩
  | cons bl bls ih =>
    intro init a b c d e
    rw [List.foldl_cons]
    obtain ⟨a2, b2, c2, d2, e2⟩ := sha1Block_lt init bl
    exact ih (sha1Block init bl) a2 b2 c2 d2 e2

/-- Shift one 32-bit word into an accumulator, preserving a strict bound. -/
theorem mulAddLt {x m y : Nat} (hx : x < m) (hy : y < 4294967296) :
    x * 4294967296 + y < m * 4294967296 := by
  calc x * 4294967296 + y < x * 4294967296 + 4294967296 := by omega
    _ = (x + 1) * 4294967296 := by ring
    _ ≤ m * 4294967296 := Nat.mul_le_mul_right _ hx

/-- SHA-1 digests are 160-bit numbers. -/
theorem sha1Nat_lt (msg : List Nat) : sha1Nat msg < 2 ^ 160 := by
  unfold sha1Nat
  rcases hf : (wordsToBlocks (bytesToWords (sha1Pad msg))).foldl sha1Block
      (0x67452301, 0xEFCDAB89, 0x98BADCFE, 0x10325476, 0xC3D2E1F0) with ⟨h0, h1, h2, h3, h4⟩
  have hb := foldl_sha1Block_lt (wordsToBlocks (bytesToWords (sha1Pad msg)))
    (0x67452301, 0xEFCDAB89, 0x98BADCFE, 0x10325476, 0xC3D2E1F0)
    (by norm_num) (by norm_num) (by norm_num) (by norm_num) (by norm_num)
  rw [hf] at hb
  obtain ⟨b0, b1, b2, b3, b4⟩ := hb
  simp only [hf]
  have hfin := mulAddLt (mulAddLt (mulAddLt (mulAddLt b0 b1) b2) b3) b4
  calc (((h0 * 4294967296 + h1) * 4294967296 + h2) * 4294967296 + h3) * 4294967296 + h4
      < 4294967296 * 4294967296 * 4294967296 * 4294967296 * 4294967296 := by
        exact lt_of_lt_of_le hfin (by norm_num)
    _ = 2 ^ 160 := by norm_num

/-- C6 (amended): `make_search_key` depends on its string filters only
through their normalizations — keys are equal whenever the normalized
filters agree, in particular under added leading/trailing whitespace, change
of letter case, and absent-versus-empty-string; keys of distinct owners never
collide (the owner id is a plaintext component of the key); and differing
`skip`/`limit` yield different keys on concrete values (verified for skip
0 vs 1 and limit 10 vs 20), though not universally — the digest is
fixed-length, so distinct skips must collide somewhere. -/
theorem make_search_key_properties :
    (∀ (uid : Nat) (fn1 fn2 ln1 ln2 em1 em2 : Option String) (sk l : Int),
      _norm fn1 = _norm fn2 → _norm ln1 = _norm ln2 → _norm em1 = _norm em2 →
      make_search_key uid fn1 ln1 em1 sk l = make_search_key uid fn2 ln2 em2 sk l) ∧
    (∀ (f : String) (w1 w2 : List Char), (∀ c ∈ w1, isPySpace c = true) →
      (∀ c ∈ w2, isPySpace c = true) →
      _norm (some (w1 ++ f.data ++ w2).asString) = _norm (some f)) ∧
    (∀ s1 s2 : String, pyLowerChars s1.data = pyLowerChars s2.data →
      _norm (some s1) = _norm (some s2)) ∧
    (_norm none = _norm (some "")) ∧
    (∀ (uid1 uid2 : Nat) (fn1 ln1 em1 : Option String) (sk1 l1 : Int)
       (fn2 ln2 em2 : Option String) (sk2 l2 : Int), uid1 ≠ uid2 →
      make_search_key uid1 fn1 ln1 em1 sk1 l1 ≠ make_search_key uid2 fn2 ln2 em2 sk2 l2) ∧
    (make_search_key 1 none none none 0 10 ≠ make_search_key 1 none none none 1 10 ∧
     make_search_key 1 none none none 0 10 ≠ make_search_key 1 none none none 0 20) := by
  refine ⟨?_, ?_, ?_, rfl, ?_, by decide, by decide⟩
  · intro uid fn1 fn2 ln1 ln2 em1 em2 sk l hfn hln hem
    unfold make_search_key searchPayload
    rw [hfn, hln, hem]
  · intro f w1 w2 h1 h2
    exact norm_pad h1 h2
  · intro s1 s2 h
    exact norm_eq_of_lower_eq h
  · intro uid1 uid2 fn1 ln1 em1 sk1 l1 fn2 ln2 em2 sk2 l2 h he
    unfold make_search_key at he
    rw [List.asString_inj] at he
    obtain ⟨he2, -⟩ := List.append_inj' he (by rw [hexChars_length, hexChars_length])
    rw [List.append_left_inj] at he2
    exact h (natDecimalChars_inj (List.append_cancel_left he2))

/-- Witness for C6: concrete keys agree across whitespace/case differences of
the filters and differ across owner ids. -/
theorem make_search_key_properties_witness :
    make_search_key 7 (some "  ALice ") (some "w") (some "E@X.com  ") 0 10 =
      make_search_key 7 (some "alice") (some "W") (some "e@x.com") 0 10 ∧
    make_search_key 1 none none none 0 10 ≠ make_search_key 2 none none none 0 10 := by
  constructor
  · exact make_search_key_properties.1 7 (some "  ALice ") (some "alice") (some "w")
      (some "W") (some "E@X.com  ") (some "e@x.com") 0 10 (by decide) (by decide) (by decide)
  · exact make_search_key_properties.2.2.2.2.1 1 2 none none none 0 10 none none none 0 10
      (by decide)

set_option maxHeartbeats 1000000

/-- Counterexample to C6 as stated: `make_search_key` cannot return
different keys for ALL pairs of differing `skip` values — the digest part
has fixed length, so the key function maps the infinitely many skips into a
finite set and must identify two of them. -/
theorem make_search_key_skip_collision :
    ¬ ∀ s1 s2 : Int, s1 ≠ s2 →
        make_search_key 1 none none none s1 10 ≠ make_search_key 1 none none none s2 10 := by
  intro hall
  obtain ⟨s1, s2, hne, heq⟩ := Finite.exists_ne_map_eq_of_infinite
    (fun s : Int => (⟨sha1Nat (utf8Bytes (searchPayload none none none s 10)),
      sha1Nat_lt _⟩ : Fin (2 ^ 160)))
  apply hall s1 s2 hne
  have hd : sha1Nat (utf8Bytes (searchPayload none none none s1 10)) =
      sha1Nat (utf8Bytes (searchPayload none none none s2 10)) :=
    congrArg Fin.val heq
  unfold make_search_key
  rw [hd]
